import Mathlib

/-!
# ILI9486 panel driver (`src/src/esp_ili9486_panel.c`)

A shallow embedding of the driver core: the RGB565 to RGB666 pixel conversion, the
blit (`panel_ili9486_draw_bitmap`), the orientation operations, the initialisation
sequence, the pass-through commands and the constructor, over an explicit transport
log, and sequences of public operations (`Op`, `step`, `run`) on a panel.

Conventions of the embedding

* C `int` is 32 bits wide on the target; an `int` value is an `Int` and every
  arithmetic result is brought back to the two's-complement range by `wrap_int`
  (the wrap-around of the target where C leaves signed overflow undefined); `>>` on
  an `int` is the arithmetic shift (`Int.shiftRight`), `&` is `Int.land`.
* `size_t` is 32 bits wide and unsigned; `uint8_t` and `uint16_t` values are `Nat`
  reduced modulo `2 ^ 8` and `2 ^ 16` where the C code stores them.
* A byte array reached through a pointer is a function `Nat → Nat` from index to
  element; a store is a pointwise update.
* The external transport (`esp_lcd_panel_io_tx_param`, `esp_lcd_panel_io_tx_color`)
  is a log of the calls it received together with a behaviour that gives the
  `esp_err_t` of each call; logging macros (`ESP_LOGE`) have no effect on the state.
* Pauses (`vTaskDelay`) and the GPIO pin of the reset line are outside the state; the
  reset operation reports the pin levels it sets.
-/

namespace Ili9486

/-! ## Machine integers -/

/-- Result of a C `int` computation on the 32-bit target (two's-complement range). -/
def wrap_int (x : Int) : Int := Int.bmod x (2 ^ 32)

/-- Conversion of an `int` to `size_t` (32 bits, unsigned). -/
def to_size_t (x : Int) : Nat := (x % 2 ^ 32).toNat

/-- Conversion of an `int` to `uint8_t`. -/
def to_uint8 (x : Int) : Nat := (x % 256).toNat

/-- Bit pattern (32 bits) of `~x` for a non-negative `int` constant `x`. -/
def int_not (x : Nat) : Nat := 0xFFFFFFFF ^^^ x

/-! ## Error codes and command constants -/

/-- The `esp_err_t` of ESP-IDF is an `int`. -/
abbrev esp_err_t := Int

def ESP_OK : esp_err_t := 0
def ESP_FAIL : esp_err_t := -1
def ESP_ERR_NO_MEM : esp_err_t := 0x101
def ESP_ERR_INVALID_ARG : esp_err_t := 0x102
def ESP_ERR_INVALID_SIZE : esp_err_t := 0x104

def ILI9486_CMD_SWRESET : Int := 0x01
def ILI9486_CMD_SLPOUT : Int := 0x11
def ILI9486_CMD_COLMOD : Int := 0x3A
def ILI9486_CMD_MADCTL : Int := 0x36
def ILI9486_CMD_DISPON : Int := 0x29
def ILI9486_CMD_CASET : Int := 0x2A
def ILI9486_CMD_RASET : Int := 0x2B
def ILI9486_CMD_RAMWR : Int := 0x2C
def ILI9486_CMD_INVON : Int := 0x21
def ILI9486_CMD_INVOFF : Int := 0x20

def LCD_H_RES : Nat := 320
def CONV_BUF_PIXELS : Nat := LCD_H_RES * 80

/-! ## Transport -/

/-- Which of the two transport primitives was called. -/
inductive IoKind where
  | tx_param
  | tx_color
deriving DecidableEq, Repr

/-- One call received by the transport: the primitive, the handle, the command
(`-1` for none) and the bytes handed over (`NULL, 0` is the empty list). -/
structure IoCall where
  kind : IoKind
  handle : Nat
  lcd_cmd : Int
  data : List Nat
deriving DecidableEq, Repr

/-- Behaviour of the external transport: the result it reports for a call, given the
calls it received before. -/
abbrev Transport := List IoCall → IoCall → esp_err_t

/-- State outside the panel object: the calls received by the transport so far
(oldest first) and the static conversion buffer `s_conv_buf`. -/
structure Hw where
  bus : List IoCall
  s_conv_buf : Nat → Nat

/-- `esp_lcd_panel_io_tx_param(io, lcd_cmd, param, param_size)`. -/
def esp_lcd_panel_io_tx_param (t : Transport) (hw : Hw) (handle : Nat) (lcd_cmd : Int)
    (param : List Nat) : esp_err_t × Hw :=
  let c : IoCall := ⟨IoKind.tx_param, handle, lcd_cmd, param⟩
  (t hw.bus c, ⟨hw.bus ++ [c], hw.s_conv_buf⟩)

/-- `esp_lcd_panel_io_tx_color(io, lcd_cmd, color, color_size)`. -/
def esp_lcd_panel_io_tx_color (t : Transport) (hw : Hw) (handle : Nat) (lcd_cmd : Int)
    (color : List Nat) : esp_err_t × Hw :=
  let c : IoCall := ⟨IoKind.tx_color, handle, lcd_cmd, color⟩
  (t hw.bus c, ⟨hw.bus ++ [c], hw.s_conv_buf⟩)

/-! ## Panel object -/

/-- The driver's `ili9486_panel_t` (the ops table `base` is the fixed set of functions
below). -/
structure ili9486_panel_t where
  handle : Nat
  reset_gpio_num : Int
  x_gap : Int
  y_gap : Int
  madctl : Nat
  invert_color : Bool
deriving DecidableEq, Repr

/-! ## Pixel conversion -/

/-- Store `val` at index `idx` of a byte array. -/
def store (buf : Nat → Nat) (idx val : Nat) : Nat → Nat :=
  fun j => if j = idx then val else buf j

/-- The loop of `rgb565_to_rgb666(src, dst, pixels)`: the contents of `dst` after
the iterations `0 .. pixels - 1`. Indices are `size_t` values, bytes are stored as
`uint8_t`, samples are read as `uint16_t`. -/
def rgb565_to_rgb666 (src : Nat → Nat) (dst : Nat → Nat) : Nat → Nat → Nat
  | 0 => dst
  | i + 1 =>
    let dst := rgb565_to_rgb666 src dst i
    let p := src i % 2 ^ 16
    let dst := store dst ((3 * i + 0) % 2 ^ 32) ((((p >>> 11) &&& 0x1F) <<< 3) % 2 ^ 8)
    let dst := store dst ((3 * i + 1) % 2 ^ 32) ((((p >>> 5) &&& 0x3F) <<< 2) % 2 ^ 8)
    store dst ((3 * i + 2) % 2 ^ 32) (((p &&& 0x1F) <<< 3) % 2 ^ 8)

/-! ## Blit -/

/-- The eight bytes of an address-set array for a start and an (exclusive) end that
already include the gap: `{0, (s >> 8) & 0xFF, 0, s & 0xFF, 0, ((e - 1) >> 8) & 0xFF,
0, (e - 1) & 0xFF}`, each cast to `uint8_t`. -/
def addr_bytes (s e : Int) : List Nat :=
  [0x00, to_uint8 (Int.land (Int.shiftRight s 8) 0xFF),
   0x00, to_uint8 (Int.land s 0xFF),
   0x00, to_uint8 (Int.land (Int.shiftRight (wrap_int (e - 1)) 8) 0xFF),
   0x00, to_uint8 (Int.land (wrap_int (e - 1)) 0xFF)]

/-- The `size_t pixels = (x_end - x_start) * (y_end - y_start)` of the blit, from the
coordinates after the gap was added. -/
def pixel_count (x_start y_start x_end y_end : Int) : Nat :=
  to_size_t (wrap_int (wrap_int (x_end - x_start) * wrap_int (y_end - y_start)))

/-- The bytes `buf[0 .. len - 1]` handed to the transport. -/
def buf_bytes (buf : Nat → Nat) (len : Nat) : List Nat :=
  (List.range len).map buf

/-- `panel_ili9486_draw_bitmap(panel, x_start, y_start, x_end, y_end, color_data)`. -/
def panel_ili9486_draw_bitmap (t : Transport) (hw : Hw) (ili : ili9486_panel_t)
    (x_start y_start x_end y_end : Int) (color_data : Nat → Nat) : esp_err_t × Hw :=
  let handle := ili.handle
  let x_start := wrap_int (x_start + ili.x_gap)
  let x_end := wrap_int (x_end + ili.x_gap)
  let y_start := wrap_int (y_start + ili.y_gap)
  let y_end := wrap_int (y_end + ili.y_gap)
  let caset := addr_bytes x_start x_end
  let raset := addr_bytes y_start y_end
  let hw := (esp_lcd_panel_io_tx_param t hw handle ILI9486_CMD_CASET []).2
  let hw := (esp_lcd_panel_io_tx_color t hw handle (-1) caset).2
  let hw := (esp_lcd_panel_io_tx_param t hw handle ILI9486_CMD_RASET []).2
  let hw := (esp_lcd_panel_io_tx_color t hw handle (-1) raset).2
  let pixels := pixel_count x_start y_start x_end y_end
  if pixels > CONV_BUF_PIXELS then
    (ESP_ERR_INVALID_SIZE, hw)
  else
    let hw : Hw := ⟨hw.bus, rgb565_to_rgb666 color_data hw.s_conv_buf pixels⟩
    let hw := (esp_lcd_panel_io_tx_param t hw handle ILI9486_CMD_RAMWR []).2
    esp_lcd_panel_io_tx_color t hw handle (-1) (buf_bytes hw.s_conv_buf ((pixels * 3) % 2 ^ 32))

/-! ## Orientation -/

/-- `ili9486_send(io, cmd, data, len)`. -/
def ili9486_send (t : Transport) (hw : Hw) (handle : Nat) (cmd : Int) (data : List Nat) :
    esp_err_t × Hw :=
  esp_lcd_panel_io_tx_param t hw handle cmd data

/-- `panel_ili9486_mirror(panel, mx, my)`: the result, the outside state and the panel
object afterwards. -/
def panel_ili9486_mirror (t : Transport) (hw : Hw) (ili : ili9486_panel_t) (mx my : Bool) :
    esp_err_t × Hw × ili9486_panel_t :=
  let m := ili.madctl
  let m := if mx then (m ||| 0x40) % 2 ^ 8 else (m &&& int_not 0x40) % 2 ^ 8
  let m := if my then (m ||| 0x80) % 2 ^ 8 else (m &&& int_not 0x80) % 2 ^ 8
  let ili := { ili with madctl := m }
  let r := ili9486_send t hw ili.handle ILI9486_CMD_MADCTL [ili.madctl]
  (r.1, r.2, ili)

/-- `panel_ili9486_swap_xy(panel, swap)`. -/
def panel_ili9486_swap_xy (t : Transport) (hw : Hw) (ili : ili9486_panel_t) (swap : Bool) :
    esp_err_t × Hw × ili9486_panel_t :=
  let m := ili.madctl
  let m := if swap then (m ||| 0x20) % 2 ^ 8 else (m &&& int_not 0x20) % 2 ^ 8
  let ili := { ili with madctl := m }
  let r := ili9486_send t hw ili.handle ILI9486_CMD_MADCTL [ili.madctl]
  (r.1, r.2, ili)

/-- `panel_ili9486_set_gap(panel, x_gap, y_gap)`. -/
def panel_ili9486_set_gap (ili : ili9486_panel_t) (x_gap y_gap : Int) :
    esp_err_t × ili9486_panel_t :=
  (ESP_OK, { ili with x_gap := x_gap, y_gap := y_gap })

/-! ## Initialisation, reset, pass-through commands and constructor -/

/-- `ili9486_send_init_sequence(io)`: fifteen sends whose results are discarded (the
function returns `void`); the `vTaskDelay` pauses between them are not part of the
state. -/
def ili9486_send_init_sequence (t : Transport) (hw : Hw) (handle : Nat) : Hw :=
  let hw := (ili9486_send t hw handle ILI9486_CMD_SWRESET []).2
  let hw := (ili9486_send t hw handle ILI9486_CMD_SLPOUT []).2
  let hw := (ili9486_send t hw handle 0xB0 [0x00]).2
  let hw := (ili9486_send t hw handle 0xB1 [0xB0, 0x11]).2
  let hw := (ili9486_send t hw handle 0xB4 [0x02]).2
  let hw := (ili9486_send t hw handle 0xB6 [0x02, 0x22]).2
  let hw := (ili9486_send t hw handle 0xB7 [0xC6]).2
  let hw := (ili9486_send t hw handle 0xC0 [0x0D, 0x0D]).2
  let hw := (ili9486_send t hw handle 0xC1 [0x41]).2
  let hw := (ili9486_send t hw handle 0xC5 [0x00, 0x18]).2
  let hw := (ili9486_send t hw handle 0xE0
    [0x0F, 0x1F, 0x1C, 0x0C, 0x0F, 0x08, 0x48, 0x98, 0x37, 0x0A, 0x13, 0x04, 0x11, 0x0D, 0x00]).2
  let hw := (ili9486_send t hw handle 0xE1
    [0x0F, 0x32, 0x2E, 0x0B, 0x0D, 0x05, 0x47, 0x75, 0x37, 0x06, 0x10, 0x03, 0x24, 0x20, 0x00]).2
  let hw := (ili9486_send t hw handle ILI9486_CMD_COLMOD [0x66]).2
  let hw := (ili9486_send t hw handle ILI9486_CMD_MADCTL [0x48]).2
  (ili9486_send t hw handle ILI9486_CMD_DISPON []).2

/-- `panel_ili9486_init(panel)`. -/
def panel_ili9486_init (t : Transport) (hw : Hw) (ili : ili9486_panel_t) :
    esp_err_t × Hw × ili9486_panel_t :=
  (ESP_OK, ili9486_send_init_sequence t hw ili.handle, ili)

/-- `panel_ili9486_reset(panel)`: the result and the `gpio_set_level(pin, level)` calls
made (the two 10 ms pauses are not part of the state). -/
def panel_ili9486_reset (ili : ili9486_panel_t) : esp_err_t × List (Int × Nat) :=
  if ili.reset_gpio_num ≥ 0 then
    (ESP_OK, [(ili.reset_gpio_num, 0), (ili.reset_gpio_num, 1)])
  else
    (ESP_OK, [])

/-- `panel_ili9486_invert_color(panel, invert)`. -/
def panel_ili9486_invert_color (t : Transport) (hw : Hw) (ili : ili9486_panel_t)
    (invert : Bool) : esp_err_t × Hw × ili9486_panel_t :=
  let cmd := if invert then ILI9486_CMD_INVON else ILI9486_CMD_INVOFF
  let r := esp_lcd_panel_io_tx_param t hw ili.handle cmd []
  (r.1, r.2, ili)

/-- `panel_ili9486_disp_on_off(panel, on)`; the argument `on` is named `on_off`. -/
def panel_ili9486_disp_on_off (t : Transport) (hw : Hw) (ili : ili9486_panel_t)
    (on_off : Bool) : esp_err_t × Hw × ili9486_panel_t :=
  let cmd := if on_off then ILI9486_CMD_DISPON else 0x28
  let r := esp_lcd_panel_io_tx_param t hw ili.handle cmd []
  (r.1, r.2, ili)

/-- The one field of ESP-IDF's `esp_lcd_panel_dev_config_t` that the driver reads. -/
structure esp_lcd_panel_dev_config_t where
  reset_gpio_num : Int
deriving DecidableEq, Repr

/-- `esp_lcd_new_panel_ili9486(io, cfg, ret_panel)`. A handle is `0` when `NULL`, the
configuration is `none` when `NULL`, `ret_panel` says whether the output slot is
present and `calloc_ok` whether `heap_caps_calloc` returns memory (zero-filled, so the
gaps start at 0). The result, the outside state and the panel written to the slot;
the `gpio_config` of the reset pin is not part of the state. -/
def esp_lcd_new_panel_ili9486 (hw : Hw) (handle : Nat)
    (cfg : Option esp_lcd_panel_dev_config_t) (ret_panel : Bool) (calloc_ok : Bool) :
    esp_err_t × Hw × Option ili9486_panel_t :=
  match cfg with
  | none => (ESP_ERR_INVALID_ARG, hw, none)
  | some c =>
    if handle = 0 ∨ ret_panel = false then
      (ESP_ERR_INVALID_ARG, hw, none)
    else if calloc_ok = false then
      (ESP_ERR_NO_MEM, hw, none)
    else
      (ESP_OK, hw, some ⟨handle, c.reset_gpio_num, 0, 0, 0x48, false⟩)

/-- Byte `k` (0 red, 1 green, 2 blue) that the conversion loop stores for a sample
`p`; used to state what the loop leaves in the destination. -/
def wire_byte (p k : Nat) : Nat :=
  if k = 0 then (((p >>> 11) &&& 0x1F) <<< 3) % 2 ^ 8
  else if k = 1 then (((p >>> 5) &&& 0x3F) <<< 2) % 2 ^ 8
  else ((p &&& 0x1F) <<< 3) % 2 ^ 8

/-! ## Vocabulary of the specification (section 4.3) -/

/-- The column-set transaction as the specification describes it: the opcode `0x2A`,
then the eight address bytes on the colour channel. -/
def spec_column_set (handle : Nat) (bytes : List Nat) : List IoCall :=
  [⟨IoKind.tx_param, handle, 0x2A, []⟩, ⟨IoKind.tx_color, handle, -1, bytes⟩]

/-- The row-set transaction as the specification describes it: the opcode `0x2B`,
then the eight address bytes on the colour channel. -/
def spec_row_set (handle : Nat) (bytes : List Nat) : List IoCall :=
  [⟨IoKind.tx_param, handle, 0x2B, []⟩, ⟨IoKind.tx_color, handle, -1, bytes⟩]

/-- The memory-write opcode `0x2C`, sent without parameters. -/
def spec_memory_write (handle : Nat) : List IoCall :=
  [⟨IoKind.tx_param, handle, 0x2C, []⟩]

/-- The colour-data payload. -/
def spec_payload (handle : Nat) (bytes : List Nat) : List IoCall :=
  [⟨IoKind.tx_color, handle, -1, bytes⟩]

/-- The value of two bytes read as a big-endian 16-bit number. -/
def be16 (hi lo : Nat) : Int := 256 * (hi : Int) + (lo : Int)

/-- The byte triple of one sample as claim C1 gives it. -/
def spec_triple (p : Nat) : List Nat :=
  [((p >>> 11) &&& 0x1F) <<< 3, ((p >>> 5) &&& 0x3F) <<< 2, (p &&& 0x1F) <<< 3]

/-- A panel object with the values the constructor gives it and no gap. -/
def panel0 : ili9486_panel_t := ⟨1, -1, 0, 0, 0x48, false⟩

/-- An outside state with an empty transport log and a zeroed conversion buffer. -/
def hw0 : Hw := ⟨[], fun _ => 0⟩

/-- A transport on which every call succeeds. -/
def transport_ok : Transport := fun _ _ => ESP_OK

/-- A transport on which every call fails. -/
def transport_fail : Transport := fun _ _ => ESP_FAIL

/-- A transport on which only the first call fails. -/
def transport_fail_first : Transport := fun bus _ => if bus = [] then ESP_FAIL else ESP_OK

/-- The four transport calls by which the blit programs the window, for the caller's
coordinates and the panel's gap. -/
def window_calls (ili : ili9486_panel_t) (x_start y_start x_end y_end : Int) : List IoCall :=
  spec_column_set ili.handle
      (addr_bytes (wrap_int (x_start + ili.x_gap)) (wrap_int (x_end + ili.x_gap)))
    ++ spec_row_set ili.handle
      (addr_bytes (wrap_int (y_start + ili.y_gap)) (wrap_int (y_end + ili.y_gap)))

/-- The bytes the blit hands over as colour payload for `n` pixels. -/
def payload_bytes (buf : Nat → Nat) (color_data : Nat → Nat) (n : Nat) : List Nat :=
  buf_bytes (rgb565_to_rgb666 color_data buf n) ((n * 3) % 2 ^ 32)

/-! ## Sequences of public operations -/

/-- A call of one of the panel's public operations with its arguments. -/
inductive Op where
  | reset
  | init
  | draw_bitmap (x_start y_start x_end y_end : Int) (color_data : Nat → Nat)
  | mirror (mx my : Bool)
  | swap_xy (swap : Bool)
  | set_gap (x_gap y_gap : Int)
  | invert_color (invert : Bool)
  | disp_on_off (on_off : Bool)

/-- The outside state together with the panel object. -/
structure Driver where
  hw : Hw
  ili : ili9486_panel_t

/-- The state after one public operation. -/
def step (t : Transport) (s : Driver) : Op → Driver
  | Op.reset => s
  | Op.init => ⟨(panel_ili9486_init t s.hw s.ili).2.1, (panel_ili9486_init t s.hw s.ili).2.2⟩
  | Op.draw_bitmap x_start y_start x_end y_end color_data =>
    ⟨(panel_ili9486_draw_bitmap t s.hw s.ili x_start y_start x_end y_end color_data).2, s.ili⟩
  | Op.mirror mx my =>
    ⟨(panel_ili9486_mirror t s.hw s.ili mx my).2.1, (panel_ili9486_mirror t s.hw s.ili mx my).2.2⟩
  | Op.swap_xy swap =>
    ⟨(panel_ili9486_swap_xy t s.hw s.ili swap).2.1, (panel_ili9486_swap_xy t s.hw s.ili swap).2.2⟩
  | Op.set_gap x_gap y_gap => ⟨s.hw, (panel_ili9486_set_gap s.ili x_gap y_gap).2⟩
  | Op.invert_color invert =>
    ⟨(panel_ili9486_invert_color t s.hw s.ili invert).2.1,
      (panel_ili9486_invert_color t s.hw s.ili invert).2.2⟩
  | Op.disp_on_off on_off =>
    ⟨(panel_ili9486_disp_on_off t s.hw s.ili on_off).2.1,
      (panel_ili9486_disp_on_off t s.hw s.ili on_off).2.2⟩

/-- The state after a sequence of public operations, first to last. -/
def run (t : Transport) (s : Driver) (ops : List Op) : Driver :=
  ops.foldl (step t) s

/-- The parameter bytes of the most recent `0x36` transaction in a transport log, if
there is one. -/
def last_madctl (bus : List IoCall) : Option (List Nat) :=
  ((bus.filter (fun c => decide (c.lcd_cmd = ILI9486_CMD_MADCTL))).getLast?).map IoCall.data

/-- The in-memory mode register agrees with the last `0x36` parameter sent, whenever
one has been sent. -/
def madctl_in_sync (s : Driver) : Prop :=
  last_madctl s.hw.bus = none ∨ last_madctl s.hw.bus = some [s.ili.madctl]

/-- No operation of the sequence is an `init` called while the mode register differs
from the value `0x48` that `init` transmits. -/
def init_only_at_default (t : Transport) : Driver → List Op → Prop
  | _, [] => True
  | s, Op.init :: ops => s.ili.madctl = 0x48 ∧ init_only_at_default t (step t s Op.init) ops
  | s, op :: ops => init_only_at_default t (step t s op) ops

/-- Every `set_gap` of the sequence has non-negative arguments. -/
def gaps_nonneg : List Op → Prop
  | [] => True
  | Op.set_gap x_gap y_gap :: ops => 0 ≤ x_gap ∧ 0 ≤ y_gap ∧ gaps_nonneg ops
  | _ :: ops => gaps_nonneg ops

/-- The fifteen transport calls of the initialisation sequence, in the order sent. -/
def init_calls (handle : Nat) : List IoCall :=
  [⟨IoKind.tx_param, handle, 0x01, []⟩,
   ⟨IoKind.tx_param, handle, 0x11, []⟩,
   ⟨IoKind.tx_param, handle, 0xB0, [0x00]⟩,
   ⟨IoKind.tx_param, handle, 0xB1, [0xB0, 0x11]⟩,
   ⟨IoKind.tx_param, handle, 0xB4, [0x02]⟩,
   ⟨IoKind.tx_param, handle, 0xB6, [0x02, 0x22]⟩,
   ⟨IoKind.tx_param, handle, 0xB7, [0xC6]⟩,
   ⟨IoKind.tx_param, handle, 0xC0, [0x0D, 0x0D]⟩,
   ⟨IoKind.tx_param, handle, 0xC1, [0x41]⟩,
   ⟨IoKind.tx_param, handle, 0xC5, [0x00, 0x18]⟩,
   ⟨IoKind.tx_param, handle, 0xE0,
    [0x0F, 0x1F, 0x1C, 0x0C, 0x0F, 0x08, 0x48, 0x98, 0x37, 0x0A, 0x13, 0x04, 0x11, 0x0D, 0x00]⟩,
   ⟨IoKind.tx_param, handle, 0xE1,
    [0x0F, 0x32, 0x2E, 0x0B, 0x0D, 0x05, 0x47, 0x75, 0x37, 0x06, 0x10, 0x03, 0x24, 0x20, 0x00]⟩,
   ⟨IoKind.tx_param, handle, 0x3A, [0x66]⟩,
   ⟨IoKind.tx_param, handle, 0x36, [0x48]⟩,
   ⟨IoKind.tx_param, handle, 0x29, []⟩]

/-! ## Definitions for the test colours, the buffer bounds and the emitted calls -/

/-- The macro `RGB565(r,g,b)` of `src/test/test_esp_ili9486_panel.c`:
`(uint16_t)((((r)&0xF8)<<8)|(((g)&0xFC)<<3)|((b)>>3))`, for non-negative arguments. -/
def RGB565 (r g b : Nat) : Nat :=
  ((((r &&& 0xF8) <<< 8) ||| ((g &&& 0xFC) <<< 3)) ||| (b >>> 3)) % 2 ^ 16

/-- The length of `static uint8_t s_conv_buf[CONV_BUF_PIXELS * 3]`. -/
def S_CONV_BUF_SIZE : Nat := CONV_BUF_PIXELS * 3

/-- The indices `3*i + 0`, `3*i + 1`, `3*i + 2` (as `size_t`) at which the loop of
`rgb565_to_rgb666(src, dst, pixels)` stores into `dst`, in the order of the stores. -/
def rgb565_to_rgb666_stores : Nat → List Nat
  | 0 => []
  | i + 1 =>
    rgb565_to_rgb666_stores i
      ++ [(3 * i + 0) % 2 ^ 32, (3 * i + 1) % 2 ^ 32, (3 * i + 2) % 2 ^ 32]

/-- What a transport call carries: the primitive, the command and the bytes. -/
def call_content (c : IoCall) : IoKind × Int × List Nat := (c.kind, c.lcd_cmd, c.data)

/-- The calls an operation added to a transport log, given the log before and after. -/
def emitted (before after : List IoCall) : List IoCall := after.drop before.length

/-! ## Lemmas on machine integers -/

theorem ldiff_255 (m : Nat) : Nat.ldiff 255 m = 255 - m % 256 := by
  apply Nat.eq_of_testBit_eq
  intro i
  have h : m % 256 < 2 ^ 8 := Nat.mod_lt _ (by norm_num)
  have e : 255 - m % 256 = 2 ^ 8 - (m % 256 + 1) := by omega
  rw [Nat.testBit_ldiff, e, Nat.testBit_two_pow_sub_succ h]
  have e2 : (255 : Nat) = 2 ^ 8 - 1 := by norm_num
  have e3 : (256 : Nat) = 2 ^ 8 := by norm_num
  rw [e2, Nat.testBit_two_pow_sub_one, e3, Nat.testBit_mod_two_pow]
  by_cases hi : i < 8 <;> simp [hi]

theorem int_land_255 (x : Int) : Int.land x 0xFF = x % 256 := by
  cases x with
  | ofNat n =>
    show ((n &&& 255 : Nat) : Int) = (n : Int) % 256
    have : n &&& 255 = n % 256 := Nat.and_pow_two_sub_one_eq_mod n 8
    rw [this]; norm_cast
  | negSucc m =>
    show ((Nat.ldiff 255 m : Nat) : Int) = Int.negSucc m % 256
    rw [ldiff_255]
    have : m % 256 < 256 := Nat.mod_lt _ (by norm_num)
    rw [Int.negSucc_eq]
    omega

theorem int_shiftRight_8 (x : Int) : Int.shiftRight x 8 = x / 256 := by
  have := Int.shiftRight_eq_div_pow x 8
  simpa using this

theorem wrap_int_emod (x : Int) : wrap_int x % 2 ^ 32 = x % 2 ^ 32 := by
  unfold wrap_int
  have := @Int.bmod_emod x (2 ^ 32)
  simpa using this

theorem wrap_int_of_range (x : Int) (h1 : -(2 ^ 31) ≤ x) (h2 : x < 2 ^ 31) :
    wrap_int x = x := by
  unfold wrap_int Int.bmod
  simp only []
  split <;> omega

theorem hi_byte_eq (x : Int) :
    to_uint8 (Int.land (Int.shiftRight x 8) 0xFF) = (x / 256 % 256).toNat := by
  rw [int_land_255, int_shiftRight_8]
  unfold to_uint8
  congr 1
  omega

theorem lo_byte_eq (x : Int) : to_uint8 (Int.land x 0xFF) = (x % 256).toNat := by
  rw [int_land_255]
  unfold to_uint8
  congr 1
  omega

/-- The high address byte depends on the value modulo `2 ^ 32` only. -/
theorem hi_byte_congr (x y : Int) (h : x % 2 ^ 32 = y % 2 ^ 32) :
    to_uint8 (Int.land (Int.shiftRight x 8) 0xFF)
      = to_uint8 (Int.land (Int.shiftRight y 8) 0xFF) := by
  rw [hi_byte_eq, hi_byte_eq]
  congr 1
  omega

/-- The low address byte depends on the value modulo `2 ^ 32` only. -/
theorem lo_byte_congr (x y : Int) (h : x % 2 ^ 32 = y % 2 ^ 32) :
    to_uint8 (Int.land x 0xFF) = to_uint8 (Int.land y 0xFF) := by
  rw [lo_byte_eq, lo_byte_eq]
  congr 1
  omega

/-- The address bytes computed from the wrapped sums are those of the exact sums. -/
theorem addr_bytes_wrap (s e g : Int) :
    addr_bytes (wrap_int (s + g)) (wrap_int (e + g))
      = [0x00, to_uint8 (Int.land (Int.shiftRight (s + g) 8) 0xFF),
         0x00, to_uint8 (Int.land (s + g) 0xFF),
         0x00, to_uint8 (Int.land (Int.shiftRight (e + g - 1) 8) 0xFF),
         0x00, to_uint8 (Int.land (e + g - 1) 0xFF)] := by
  have h1 : wrap_int (s + g) % 2 ^ 32 = (s + g) % 2 ^ 32 := wrap_int_emod _
  have h2 : wrap_int (wrap_int (e + g) - 1) % 2 ^ 32 = (e + g - 1) % 2 ^ 32 := by
    rw [wrap_int_emod]
    have := wrap_int_emod (e + g)
    omega
  unfold addr_bytes
  rw [hi_byte_congr _ _ h1, lo_byte_congr _ _ h1, hi_byte_congr _ _ h2, lo_byte_congr _ _ h2]

theorem addr_bytes_length (s e : Int) : (addr_bytes s e).length = 8 := rfl

/-- The pixel count the blit computes is the product of the caller's width and height
as a `size_t`, whatever the gap. -/
theorem pixel_count_eq (xs ys xe ye gx gy : Int) :
    pixel_count (wrap_int (xs + gx)) (wrap_int (ys + gy)) (wrap_int (xe + gx))
        (wrap_int (ye + gy))
      = to_size_t ((xe - xs) * (ye - ys)) := by
  unfold pixel_count to_size_t
  congr 1
  rw [wrap_int_emod]
  have hx : wrap_int (wrap_int (xe + gx) - wrap_int (xs + gx)) % 2 ^ 32
      = (xe - xs) % 2 ^ 32 := by
    rw [wrap_int_emod]
    have h1 := wrap_int_emod (xe + gx)
    have h2 := wrap_int_emod (xs + gx)
    omega
  have hy : wrap_int (wrap_int (ye + gy) - wrap_int (ys + gy)) % 2 ^ 32
      = (ye - ys) % 2 ^ 32 := by
    rw [wrap_int_emod]
    have h1 := wrap_int_emod (ye + gy)
    have h2 := wrap_int_emod (ys + gy)
    omega
  rw [Int.mul_emod, hx, hy, ← Int.mul_emod]

theorem to_size_t_of_nat (n : Nat) (h : n < 2 ^ 32) : to_size_t (n : Int) = n := by
  unfold to_size_t
  omega

/-! ## Lemmas on the pixel conversion -/

theorem store_same (buf : Nat → Nat) (idx val : Nat) : store buf idx val idx = val := by
  simp [store]

theorem store_other (buf : Nat → Nat) (idx val j : Nat) (h : j ≠ idx) :
    store buf idx val j = buf j := by
  simp [store, h]

/-- Bytes beyond the converted prefix keep their old value. -/
theorem rgb565_to_rgb666_above (src dst : Nat → Nat) (n : Nat) (hn : 3 * n ≤ 2 ^ 32)
    (j : Nat) (hj : 3 * n ≤ j) : rgb565_to_rgb666 src dst n j = dst j := by
  induction n with
  | zero => rfl
  | succ m ih =>
    have h0 : (3 * m + 0) % 2 ^ 32 = 3 * m := Nat.mod_eq_of_lt (by omega)
    have h1 : (3 * m + 1) % 2 ^ 32 = 3 * m + 1 := Nat.mod_eq_of_lt (by omega)
    have h2 : (3 * m + 2) % 2 ^ 32 = 3 * m + 2 := Nat.mod_eq_of_lt (by omega)
    simp only [rgb565_to_rgb666, h0, h1, h2]
    rw [store_other _ _ _ _ (by omega), store_other _ _ _ _ (by omega),
      store_other _ _ _ _ (by omega)]
    exact ih (by omega) (by omega)

/-- Byte `3 * i + k` of the converted prefix is channel `k` of sample `i`. -/
theorem rgb565_to_rgb666_below (src dst : Nat → Nat) (n : Nat) (hn : 3 * n ≤ 2 ^ 32)
    (i k : Nat) (hi : i < n) (hk : k < 3) :
    rgb565_to_rgb666 src dst n (3 * i + k) = wire_byte (src i % 2 ^ 16) k := by
  induction n with
  | zero => omega
  | succ m ih =>
    have h0 : (3 * m + 0) % 2 ^ 32 = 3 * m := Nat.mod_eq_of_lt (by omega)
    have h1 : (3 * m + 1) % 2 ^ 32 = 3 * m + 1 := Nat.mod_eq_of_lt (by omega)
    have h2 : (3 * m + 2) % 2 ^ 32 = 3 * m + 2 := Nat.mod_eq_of_lt (by omega)
    simp only [rgb565_to_rgb666, h0, h1, h2]
    by_cases him : i = m
    · subst him
      rcases (by omega : k = 0 ∨ k = 1 ∨ k = 2) with rfl | rfl | rfl
      · rw [store_other _ _ _ _ (by omega), store_other _ _ _ _ (by omega)]
        simp [store_same, wire_byte]
      · rw [store_other _ _ _ _ (by omega)]
        simp [store_same, wire_byte]
      · simp [store_same, wire_byte]
    · rw [store_other _ _ _ _ (by omega), store_other _ _ _ _ (by omega),
        store_other _ _ _ _ (by omega)]
      exact ih (by omega) (by omega)

theorem red_byte_eq (p : Nat) :
    (((p >>> 11) &&& 0x1F) <<< 3) % 2 ^ 8 = ((p >>> 11) &&& 0x1F) <<< 3 ∧
      (((p >>> 11) &&& 0x1F) <<< 3) % 8 = 0 := by
  have h : (p >>> 11) &&& 0x1F = (p >>> 11) % 2 ^ 5 := Nat.and_pow_two_sub_one_eq_mod _ 5
  rw [h, Nat.shiftLeft_eq]
  have : (p >>> 11) % 2 ^ 5 < 2 ^ 5 := Nat.mod_lt _ (by norm_num)
  constructor
  · apply Nat.mod_eq_of_lt; omega
  · omega

theorem green_byte_eq (p : Nat) :
    (((p >>> 5) &&& 0x3F) <<< 2) % 2 ^ 8 = ((p >>> 5) &&& 0x3F) <<< 2 ∧
      (((p >>> 5) &&& 0x3F) <<< 2) % 4 = 0 := by
  have h : (p >>> 5) &&& 0x3F = (p >>> 5) % 2 ^ 6 := Nat.and_pow_two_sub_one_eq_mod _ 6
  rw [h, Nat.shiftLeft_eq]
  have : (p >>> 5) % 2 ^ 6 < 2 ^ 6 := Nat.mod_lt _ (by norm_num)
  constructor
  · apply Nat.mod_eq_of_lt; omega
  · omega

theorem blue_byte_eq (p : Nat) :
    ((p &&& 0x1F) <<< 3) % 2 ^ 8 = (p &&& 0x1F) <<< 3 ∧ ((p &&& 0x1F) <<< 3) % 8 = 0 := by
  have h : p &&& 0x1F = p % 2 ^ 5 := Nat.and_pow_two_sub_one_eq_mod _ 5
  rw [h, Nat.shiftLeft_eq]
  have : p % 2 ^ 5 < 2 ^ 5 := Nat.mod_lt _ (by norm_num)
  constructor
  · apply Nat.mod_eq_of_lt; omega
  · omega

/-- The stored channel bytes are the triple of claim C1. -/
theorem wire_byte_triple (p : Nat) :
    [wire_byte (p % 2 ^ 16) 0, wire_byte (p % 2 ^ 16) 1, wire_byte (p % 2 ^ 16) 2]
      = spec_triple p := by
  have hr : ((p % 2 ^ 16) >>> 11) &&& 0x1F = (p >>> 11) &&& 0x1F := by
    have a : ((p % 2 ^ 16) >>> 11) &&& 0x1F = ((p % 2 ^ 16) >>> 11) % 2 ^ 5 :=
      Nat.and_pow_two_sub_one_eq_mod _ 5
    have b : (p >>> 11) &&& 0x1F = (p >>> 11) % 2 ^ 5 := Nat.and_pow_two_sub_one_eq_mod _ 5
    rw [a, b, Nat.shiftRight_eq_div_pow, Nat.shiftRight_eq_div_pow]
    omega
  have hg : ((p % 2 ^ 16) >>> 5) &&& 0x3F = (p >>> 5) &&& 0x3F := by
    have a : ((p % 2 ^ 16) >>> 5) &&& 0x3F = ((p % 2 ^ 16) >>> 5) % 2 ^ 6 :=
      Nat.and_pow_two_sub_one_eq_mod _ 6
    have b : (p >>> 5) &&& 0x3F = (p >>> 5) % 2 ^ 6 := Nat.and_pow_two_sub_one_eq_mod _ 6
    rw [a, b, Nat.shiftRight_eq_div_pow, Nat.shiftRight_eq_div_pow]
    omega
  have hb : (p % 2 ^ 16) &&& 0x1F = p &&& 0x1F := by
    have a : (p % 2 ^ 16) &&& 0x1F = (p % 2 ^ 16) % 2 ^ 5 := Nat.and_pow_two_sub_one_eq_mod _ 5
    have b : p &&& 0x1F = p % 2 ^ 5 := Nat.and_pow_two_sub_one_eq_mod _ 5
    rw [a, b]
    omega
  simp only [wire_byte, spec_triple, if_true, if_false, one_ne_zero, OfNat.ofNat_ne_zero,
    OfNat.ofNat_ne_one]
  rw [hr, hg, hb, (red_byte_eq p).1, (green_byte_eq p).1, (blue_byte_eq p).1]

theorem buf_bytes_length (buf : Nat → Nat) (len : Nat) : (buf_bytes buf len).length = len := by
  simp [buf_bytes]

theorem buf_bytes_get (buf : Nat → Nat) (len j : Nat) (h : j < len) :
    (buf_bytes buf len)[j]? = some (buf j) := by
  simp [buf_bytes, h]

/-- A buffer whose first `3 * n` bytes are the channel bytes of the samples reads back
as the concatenation of the samples' triples. -/
theorem buf_bytes_triples (src buf : Nat → Nat) (n : Nat)
    (h : ∀ i k, i < n → k < 3 → buf (3 * i + k) = wire_byte (src i % 2 ^ 16) k) :
    buf_bytes buf (3 * n) = (List.range n).flatMap (fun i => spec_triple (src i)) := by
  induction n with
  | zero => rfl
  | succ m ih =>
    have e : 3 * (m + 1) = 3 * m + 1 + 1 + 1 := by ring
    have ih2 := ih (fun i k hi hk => h i k (by omega) hk)
    have h0 := h m 0 (by omega) (by omega)
    have h1 := h m 1 (by omega) (by omega)
    have h2 := h m 2 (by omega) (by omega)
    rw [Nat.add_zero] at h0
    unfold buf_bytes at ih2 ⊢
    rw [e, List.range_succ, List.range_succ, List.range_succ, List.range_succ m]
    simp only [List.map_append, List.map_cons, List.map_nil, List.flatMap_append,
      List.flatMap_singleton, List.append_assoc, List.singleton_append]
    rw [ih2, h0, h1, h2, ← wire_byte_triple]
    rfl

/-! ## Lemmas on the blit -/

/-- The blit in closed form: the window calls, then either the size error or the
memory-write opcode and the payload, whose result is returned. -/
theorem draw_bitmap_eq (t : Transport) (hw : Hw) (ili : ili9486_panel_t)
    (x_start y_start x_end y_end : Int) (color_data : Nat → Nat) :
    panel_ili9486_draw_bitmap t hw ili x_start y_start x_end y_end color_data
      = if CONV_BUF_PIXELS < to_size_t ((x_end - x_start) * (y_end - y_start)) then
          (ESP_ERR_INVALID_SIZE,
            ⟨hw.bus ++ window_calls ili x_start y_start x_end y_end, hw.s_conv_buf⟩)
        else
          (t (hw.bus ++ window_calls ili x_start y_start x_end y_end
                ++ spec_memory_write ili.handle)
              ⟨IoKind.tx_color, ili.handle, -1, payload_bytes hw.s_conv_buf color_data
                (to_size_t ((x_end - x_start) * (y_end - y_start)))⟩,
            ⟨hw.bus ++ window_calls ili x_start y_start x_end y_end
                ++ spec_memory_write ili.handle
                ++ spec_payload ili.handle (payload_bytes hw.s_conv_buf color_data
                    (to_size_t ((x_end - x_start) * (y_end - y_start)))),
              rgb565_to_rgb666 color_data hw.s_conv_buf
                (to_size_t ((x_end - x_start) * (y_end - y_start)))⟩) := by
  unfold panel_ili9486_draw_bitmap
  simp only [pixel_count_eq, gt_iff_lt]
  split
  · simp [esp_lcd_panel_io_tx_param, esp_lcd_panel_io_tx_color, window_calls,
      spec_column_set, spec_row_set, ILI9486_CMD_CASET, ILI9486_CMD_RASET]
  · simp [esp_lcd_panel_io_tx_param, esp_lcd_panel_io_tx_color, window_calls,
      spec_column_set, spec_row_set, spec_memory_write, spec_payload, payload_bytes,
      ILI9486_CMD_CASET, ILI9486_CMD_RASET, ILI9486_CMD_RAMWR]

/-- Within the capacity the payload is `3 * n` bytes long. -/
theorem payload_bytes_length (buf color_data : Nat → Nat) (n : Nat)
    (h : n ≤ CONV_BUF_PIXELS) : (payload_bytes buf color_data n).length = 3 * n := by
  have hc : CONV_BUF_PIXELS = 25600 := rfl
  unfold payload_bytes
  rw [buf_bytes_length]
  omega

/-- Within the capacity the payload is the concatenation of the samples' triples. -/
theorem payload_bytes_eq (buf color_data : Nat → Nat) (n : Nat) (h : n ≤ CONV_BUF_PIXELS) :
    payload_bytes buf color_data n
      = (List.range n).flatMap (fun i => spec_triple (color_data i)) := by
  have hc : CONV_BUF_PIXELS = 25600 := rfl
  have e : (n * 3) % 2 ^ 32 = 3 * n := by omega
  unfold payload_bytes
  rw [e]
  exact buf_bytes_triples color_data _ n
    (fun i k hi hk => rgb565_to_rgb666_below color_data buf n (by omega) i k hi hk)

/-! ## Lemmas on the mode register -/

set_option maxRecDepth 1000000 in
/-- The register updates of the mirror and swap operations on every 8-bit value. -/
theorem madctl_bits : ∀ m, m < 256 → ∀ a b : Bool,
    ((if b then ((if a then (m ||| 0x40) % 2 ^ 8 else (m &&& int_not 0x40) % 2 ^ 8)
          ||| 0x80) % 2 ^ 8
        else ((if a then (m ||| 0x40) % 2 ^ 8 else (m &&& int_not 0x40) % 2 ^ 8)
          &&& int_not 0x80) % 2 ^ 8)
      = ((m &&& 0x3F) ||| (if a then 0x40 else 0)) ||| (if b then 0x80 else 0))
    ∧ ((if a then (m ||| 0x20) % 2 ^ 8 else (m &&& int_not 0x20) % 2 ^ 8)
      = (m &&& 0xDF) ||| (if a then 0x20 else 0)) := by
  decide

/-! ## Lemmas on initialisation and on sequences of operations -/

/-- The initialisation sequence appends its fifteen calls to the log and leaves the
conversion buffer alone, whatever the transport reports. -/
theorem init_sequence_eq (t : Transport) (hw : Hw) (handle : Nat) :
    ili9486_send_init_sequence t hw handle = ⟨hw.bus ++ init_calls handle, hw.s_conv_buf⟩ := by
  simp [ili9486_send_init_sequence, ili9486_send, esp_lcd_panel_io_tx_param, init_calls,
    ILI9486_CMD_SWRESET, ILI9486_CMD_SLPOUT, ILI9486_CMD_COLMOD, ILI9486_CMD_MADCTL,
    ILI9486_CMD_DISPON]

theorem last_madctl_append_one (bus : List IoCall) (c : IoCall) :
    last_madctl (bus ++ [c])
      = if c.lcd_cmd = ILI9486_CMD_MADCTL then some c.data else last_madctl bus := by
  unfold last_madctl
  by_cases h : c.lcd_cmd = ILI9486_CMD_MADCTL
  · simp [List.filter_append, h]
  · simp [List.filter_append, h]

/-- Calls with other opcodes do not change the most recent `0x36` parameter. -/
theorem last_madctl_append_other (bus l : List IoCall)
    (h : ∀ c ∈ l, c.lcd_cmd ≠ ILI9486_CMD_MADCTL) : last_madctl (bus ++ l) = last_madctl bus := by
  unfold last_madctl
  have : l.filter (fun c => decide (c.lcd_cmd = ILI9486_CMD_MADCTL)) = [] := by
    rw [List.filter_eq_nil_iff]
    intro c hc
    simpa using h c hc
  rw [List.filter_append, this, List.append_nil]

theorem last_madctl_init (bus : List IoCall) (handle : Nat) :
    last_madctl (bus ++ init_calls handle) = some [0x48] := by
  unfold last_madctl
  have : (init_calls handle).filter (fun c => decide (c.lcd_cmd = ILI9486_CMD_MADCTL))
      = [⟨IoKind.tx_param, handle, 0x36, [0x48]⟩] := by
    simp [init_calls, List.filter, ILI9486_CMD_MADCTL]
  rw [List.filter_append, this]
  simp

theorem window_calls_other (ili : ili9486_panel_t) (a b c d : Int) :
    ∀ x ∈ window_calls ili a b c d, x.lcd_cmd ≠ ILI9486_CMD_MADCTL := by
  intro x hx
  simp only [window_calls, spec_column_set, spec_row_set, List.cons_append, List.nil_append,
    List.mem_cons, List.mem_singleton, List.not_mem_nil, or_false] at hx
  rcases hx with rfl | rfl | rfl | rfl <;> simp [ILI9486_CMD_MADCTL]

/-- The blit sends no `0x36` transaction. -/
theorem last_madctl_draw (t : Transport) (hw : Hw) (ili : ili9486_panel_t)
    (x_start y_start x_end y_end : Int) (color_data : Nat → Nat) :
    last_madctl
        (panel_ili9486_draw_bitmap t hw ili x_start y_start x_end y_end color_data).2.bus
      = last_madctl hw.bus := by
  rw [draw_bitmap_eq]
  split
  · exact last_madctl_append_other _ _ (window_calls_other _ _ _ _ _)
  · simp only [List.append_assoc]
    apply last_madctl_append_other
    intro x hx
    rcases List.mem_append.mp hx with h | h
    · exact window_calls_other _ _ _ _ _ x h
    · simp only [spec_memory_write, spec_payload, List.cons_append, List.nil_append,
        List.mem_cons, List.mem_singleton, List.not_mem_nil, or_false] at h
      rcases h with rfl | rfl <;> simp [ILI9486_CMD_MADCTL]

set_option maxRecDepth 1000000 in
/-- The register updates of the mirror and swap operations keep bits 0 to 4. -/
theorem madctl_low_bits : ∀ m, m < 256 → ∀ a : Bool,
    (if a then (m ||| 0x40) % 2 ^ 8 else (m &&& int_not 0x40) % 2 ^ 8) &&& 0x1F = m &&& 0x1F
    ∧ (if a then (m ||| 0x80) % 2 ^ 8 else (m &&& int_not 0x80) % 2 ^ 8) &&& 0x1F = m &&& 0x1F
    ∧ (if a then (m ||| 0x20) % 2 ^ 8 else (m &&& int_not 0x20) % 2 ^ 8) &&& 0x1F
        = m &&& 0x1F := by
  decide

theorem run_nil (t : Transport) (s : Driver) : run t s [] = s := rfl

theorem run_cons (t : Transport) (s : Driver) (op : Op) (ops : List Op) :
    run t s (op :: ops) = run t (step t s op) ops := rfl

/-! ## Claims -/

/-- C1: for every 16-bit sample `p` at position `i` of the source, the conversion
leaves at `3 * i`, `3 * i + 1`, `3 * i + 2` the bytes `((p >> 11) & 0x1F) << 3`,
`((p >> 5) & 0x3F) << 2`, `(p & 0x1F) << 3`; the low 3 bits of red and blue and the
low 2 bits of green are zero; and the five fixed samples give the listed triples. -/
theorem rgb565_to_rgb666_triple (src dst : Nat → Nat) (pixels i p : Nat)
    (hcap : 3 * pixels ≤ 2 ^ 32) (hi : i < pixels) (hp : p < 2 ^ 16) (hsrc : src i = p) :
    (rgb565_to_rgb666 src dst pixels (3 * i), rgb565_to_rgb666 src dst pixels (3 * i + 1),
        rgb565_to_rgb666 src dst pixels (3 * i + 2))
      = (((p >>> 11) &&& 0x1F) <<< 3, ((p >>> 5) &&& 0x3F) <<< 2, (p &&& 0x1F) <<< 3)
    ∧ rgb565_to_rgb666 src dst pixels (3 * i) % 8 = 0
    ∧ rgb565_to_rgb666 src dst pixels (3 * i + 1) % 4 = 0
    ∧ rgb565_to_rgb666 src dst pixels (3 * i + 2) % 8 = 0
    ∧ (p = 0xF800 → (rgb565_to_rgb666 src dst pixels (3 * i),
        rgb565_to_rgb666 src dst pixels (3 * i + 1),
        rgb565_to_rgb666 src dst pixels (3 * i + 2)) = (0xF8, 0x00, 0x00))
    ∧ (p = 0x07E0 → (rgb565_to_rgb666 src dst pixels (3 * i),
        rgb565_to_rgb666 src dst pixels (3 * i + 1),
        rgb565_to_rgb666 src dst pixels (3 * i + 2)) = (0x00, 0xFC, 0x00))
    ∧ (p = 0x001F → (rgb565_to_rgb666 src dst pixels (3 * i),
        rgb565_to_rgb666 src dst pixels (3 * i + 1),
        rgb565_to_rgb666 src dst pixels (3 * i + 2)) = (0x00, 0x00, 0xF8))
    ∧ (p = 0x0000 → (rgb565_to_rgb666 src dst pixels (3 * i),
        rgb565_to_rgb666 src dst pixels (3 * i + 1),
        rgb565_to_rgb666 src dst pixels (3 * i + 2)) = (0, 0, 0))
    ∧ (p = 0xFFFF → (rgb565_to_rgb666 src dst pixels (3 * i),
        rgb565_to_rgb666 src dst pixels (3 * i + 1),
        rgb565_to_rgb666 src dst pixels (3 * i + 2)) = (0xF8, 0xFC, 0xF8)) := by
  have hm : src i % 2 ^ 16 = p := by rw [hsrc]; exact Nat.mod_eq_of_lt hp
  have e0 := rgb565_to_rgb666_below src dst pixels hcap i 0 hi (by omega)
  have e1 := rgb565_to_rgb666_below src dst pixels hcap i 1 hi (by omega)
  have e2 := rgb565_to_rgb666_below src dst pixels hcap i 2 hi (by omega)
  rw [hm] at e0 e1 e2
  rw [Nat.add_zero] at e0
  simp only [wire_byte, if_true, if_false, one_ne_zero, OfNat.ofNat_ne_zero,
    OfNat.ofNat_ne_one] at e0 e1 e2
  rw [(red_byte_eq p).1] at e0
  rw [(green_byte_eq p).1] at e1
  rw [(blue_byte_eq p).1] at e2
  rw [e0, e1, e2]
  refine ⟨rfl, ?_, ?_, ?_, ?_, ?_, ?_, ?_, ?_⟩
  · exact (red_byte_eq p).2
  · exact (green_byte_eq p).2
  · exact (blue_byte_eq p).2
  all_goals (intro h; subst h; decide)

/-- C1 at the two-sample source `[0x0000, 0xFFFF]`, second sample. -/
theorem rgb565_to_rgb666_triple_witness :
    (rgb565_to_rgb666 (fun j => if j = 1 then 0xFFFF else 0) (fun _ => 0) 2 (3 * 1),
        rgb565_to_rgb666 (fun j => if j = 1 then 0xFFFF else 0) (fun _ => 0) 2 (3 * 1 + 1),
        rgb565_to_rgb666 (fun j => if j = 1 then 0xFFFF else 0) (fun _ => 0) 2 (3 * 1 + 2))
      = (0xF8, 0xFC, 0xF8) :=
  (rgb565_to_rgb666_triple (fun j => if j = 1 then 0xFFFF else 0) (fun _ => 0) 2 1 0xFFFF
    (by decide) (by decide) (by decide) (by decide)).2.2.2.2.2.2.2.2 rfl

/-- C2 (as stated, refuted): on the empty rectangle `(0, 0, 0, 0)` with gap `(0, 0)`
the start is `0 <= xs` and the inclusive end is `xe - 1 = -1 <= 65535`, yet the end
bytes at positions 5 and 7 are `0xFF, 0xFF`, which decode to 65535 and not to
`xe - 1`. -/
theorem draw_bitmap_address_decode_counterexample :
    (0 : Int) ≤ 0 + panel0.x_gap ∧ (0 : Int) + panel0.x_gap - 1 ≤ 65535
    ∧ (panel_ili9486_draw_bitmap transport_ok hw0 panel0 0 0 0 0 (fun _ => 0)).2.bus
        = spec_column_set 1 [0, 0, 0, 0, 0, 0xFF, 0, 0xFF]
          ++ spec_row_set 1 [0, 0, 0, 0, 0, 0xFF, 0, 0xFF]
          ++ spec_memory_write 1 ++ spec_payload 1 []
    ∧ be16 0xFF 0xFF ≠ 0 + panel0.x_gap - 1 := by
  refine ⟨by decide, by decide, ?_, by decide⟩
  rw [draw_bitmap_eq]
  simp only [window_calls, addr_bytes_wrap, hi_byte_eq, lo_byte_eq]
  decide

/-- C2 (amended): with `xs = x_start + x_gap` and `xe = x_end + x_gap`, every draw call
sends after the opcode `0x2A` the bytes `[0, (xs >> 8) & 0xFF, 0, xs & 0xFF, 0,
((xe - 1) >> 8) & 0xFF, 0, (xe - 1) & 0xFF]` and after `0x2B` the same built from the
rows; the bytes at positions 1, 3 decode big-endian to `xs` whenever
`0 <= xs <= 65535`, those at positions 5, 7 decode to `xe - 1` whenever
`0 <= xe - 1 <= 65535`, and likewise for rows. -/
theorem draw_bitmap_address_bytes (t : Transport) (hw : Hw) (ili : ili9486_panel_t)
    (x_start y_start x_end y_end : Int) (color_data : Nat → Nat) :
    (∃ rest,
      (panel_ili9486_draw_bitmap t hw ili x_start y_start x_end y_end color_data).2.bus
        = hw.bus
          ++ spec_column_set ili.handle
              [0x00, to_uint8 (Int.land (Int.shiftRight (x_start + ili.x_gap) 8) 0xFF),
               0x00, to_uint8 (Int.land (x_start + ili.x_gap) 0xFF),
               0x00, to_uint8 (Int.land (Int.shiftRight (x_end + ili.x_gap - 1) 8) 0xFF),
               0x00, to_uint8 (Int.land (x_end + ili.x_gap - 1) 0xFF)]
          ++ spec_row_set ili.handle
              [0x00, to_uint8 (Int.land (Int.shiftRight (y_start + ili.y_gap) 8) 0xFF),
               0x00, to_uint8 (Int.land (y_start + ili.y_gap) 0xFF),
               0x00, to_uint8 (Int.land (Int.shiftRight (y_end + ili.y_gap - 1) 8) 0xFF),
               0x00, to_uint8 (Int.land (y_end + ili.y_gap - 1) 0xFF)]
          ++ rest)
    ∧ (0 ≤ x_start + ili.x_gap → x_start + ili.x_gap ≤ 65535 →
        be16 (to_uint8 (Int.land (Int.shiftRight (x_start + ili.x_gap) 8) 0xFF))
            (to_uint8 (Int.land (x_start + ili.x_gap) 0xFF)) = x_start + ili.x_gap)
    ∧ (0 ≤ x_end + ili.x_gap - 1 → x_end + ili.x_gap - 1 ≤ 65535 →
        be16 (to_uint8 (Int.land (Int.shiftRight (x_end + ili.x_gap - 1) 8) 0xFF))
            (to_uint8 (Int.land (x_end + ili.x_gap - 1) 0xFF)) = x_end + ili.x_gap - 1)
    ∧ (0 ≤ y_start + ili.y_gap → y_start + ili.y_gap ≤ 65535 →
        be16 (to_uint8 (Int.land (Int.shiftRight (y_start + ili.y_gap) 8) 0xFF))
            (to_uint8 (Int.land (y_start + ili.y_gap) 0xFF)) = y_start + ili.y_gap)
    ∧ (0 ≤ y_end + ili.y_gap - 1 → y_end + ili.y_gap - 1 ≤ 65535 →
        be16 (to_uint8 (Int.land (Int.shiftRight (y_end + ili.y_gap - 1) 8) 0xFF))
            (to_uint8 (Int.land (y_end + ili.y_gap - 1) 0xFF)) = y_end + ili.y_gap - 1) := by
  have dec : ∀ v : Int, 0 ≤ v → v ≤ 65535 →
      be16 (to_uint8 (Int.land (Int.shiftRight v 8) 0xFF)) (to_uint8 (Int.land v 0xFF))
        = v := by
    intro v h0 h1
    rw [hi_byte_eq, lo_byte_eq]
    unfold be16
    omega
  refine ⟨?_, dec _, dec _, dec _, dec _⟩
  rw [draw_bitmap_eq]
  split
  · exact ⟨[], by simp [window_calls, addr_bytes_wrap]⟩
  · exact ⟨spec_memory_write ili.handle ++ spec_payload ili.handle
        (payload_bytes hw.s_conv_buf color_data
          (to_size_t ((x_end - x_start) * (y_end - y_start)))),
      by simp only [window_calls, addr_bytes_wrap, List.append_assoc]⟩

/-- C2 (amended) on the rectangle `(10, 5, 20, 7)` with gap `(2, 3)`: the start bytes
decode to 12. -/
theorem draw_bitmap_address_bytes_witness :
    be16 (to_uint8 (Int.land (Int.shiftRight ((10 : Int) + 2) 8) 0xFF))
      (to_uint8 (Int.land ((10 : Int) + 2) 0xFF)) = 10 + 2 :=
  (draw_bitmap_address_bytes transport_ok hw0 ⟨1, -1, 2, 3, 0x48, false⟩ 10 5 20 7
    (fun _ => 0)).2.1 (by decide) (by decide)

/-- C3: when the pixel count `n = (x_end - x_start) * (y_end - y_start)` is within the
capacity, the payload sent after the opcode `0x2C` has length `3 * n`, is the
concatenation in input order of the triples of the first `n` samples, and its bytes
`3 * i`, `3 * i + 1`, `3 * i + 2` are the red, green and blue bytes of sample `i`. -/
theorem draw_bitmap_payload (t : Transport) (hw : Hw) (ili : ili9486_panel_t)
    (x_start y_start x_end y_end : Int) (color_data : Nat → Nat) (n : Nat)
    (hn : (x_end - x_start) * (y_end - y_start) = (n : Int)) (hcap : n ≤ CONV_BUF_PIXELS) :
    ∃ before payload,
      (panel_ili9486_draw_bitmap t hw ili x_start y_start x_end y_end color_data).2.bus
        = before ++ spec_memory_write ili.handle ++ spec_payload ili.handle payload
      ∧ payload.length = 3 * n
      ∧ payload = (List.range n).flatMap (fun i => spec_triple (color_data i))
      ∧ ∀ i, i < n →
          payload[3 * i]? = some (((color_data i >>> 11) &&& 0x1F) <<< 3)
          ∧ payload[3 * i + 1]? = some (((color_data i >>> 5) &&& 0x3F) <<< 2)
          ∧ payload[3 * i + 2]? = some ((color_data i &&& 0x1F) <<< 3) := by
  have hc : CONV_BUF_PIXELS = 25600 := rfl
  have hs : to_size_t ((x_end - x_start) * (y_end - y_start)) = n := by
    rw [hn]
    exact to_size_t_of_nat n (by omega)
  rw [draw_bitmap_eq, hs, if_neg (by omega)]
  refine ⟨_, _, rfl, payload_bytes_length _ _ n hcap, payload_bytes_eq _ _ n hcap, ?_⟩
  intro i hi
  have e : (n * 3) % 2 ^ 32 = 3 * n := by omega
  have tr := wire_byte_triple (color_data i)
  simp only [spec_triple, List.cons.injEq, and_true] at tr
  unfold payload_bytes
  rw [e]
  refine ⟨?_, ?_, ?_⟩
  · rw [buf_bytes_get _ _ _ (by omega)]
    have := rgb565_to_rgb666_below color_data hw.s_conv_buf n (by omega) i 0 hi (by omega)
    rw [Nat.add_zero] at this
    rw [this, tr.1]
  · rw [buf_bytes_get _ _ _ (by omega)]
    rw [rgb565_to_rgb666_below color_data hw.s_conv_buf n (by omega) i 1 hi (by omega),
      tr.2.1]
  · rw [buf_bytes_get _ _ _ (by omega)]
    rw [rgb565_to_rgb666_below color_data hw.s_conv_buf n (by omega) i 2 hi (by omega),
      tr.2.2]

/-- C3 on the rectangle `(0, 0, 2, 1)` with the samples `0xF800, 0x07E0`: the payload
is `F8 00 00 00 FC 00`. -/
theorem draw_bitmap_payload_witness :
    ∃ before payload,
      (panel_ili9486_draw_bitmap transport_ok hw0 panel0 0 0 2 1
          (fun i => if i = 0 then 0xF800 else 0x07E0)).2.bus
        = before ++ spec_memory_write panel0.handle ++ spec_payload panel0.handle payload
      ∧ payload.length = 3 * 2
      ∧ payload = (List.range 2).flatMap
          (fun i => spec_triple ((fun i => if i = 0 then 0xF800 else 0x07E0) i))
      ∧ ∀ i, i < 2 →
          payload[3 * i]? = some
            ((((fun i => if i = 0 then 0xF800 else 0x07E0) i >>> 11) &&& 0x1F) <<< 3)
          ∧ payload[3 * i + 1]? = some
            ((((fun i => if i = 0 then 0xF800 else 0x07E0) i >>> 5) &&& 0x3F) <<< 2)
          ∧ payload[3 * i + 2]? = some
            (((fun i => if i = 0 then 0xF800 else 0x07E0) i &&& 0x1F) <<< 3) :=
  draw_bitmap_payload transport_ok hw0 panel0 0 0 2 1
    (fun i => if i = 0 then 0xF800 else 0x07E0) 2 (by decide) (by decide)

/-- C4: when the pixel count `n` is within the capacity, a draw call adds to the
transport log exactly the column-set transaction, the row-set transaction, the
memory-write opcode and the payload of `3 * n` bytes, in this order and nothing else
(each address-set transaction being its opcode followed by its eight bytes). -/
theorem draw_bitmap_four_transactions (t : Transport) (hw : Hw) (ili : ili9486_panel_t)
    (x_start y_start x_end y_end : Int) (color_data : Nat → Nat) (n : Nat)
    (hn : (x_end - x_start) * (y_end - y_start) = (n : Int)) (hcap : n ≤ CONV_BUF_PIXELS) :
    ∃ caset raset payload,
      caset.length = 8 ∧ raset.length = 8 ∧ payload.length = 3 * n
      ∧ (panel_ili9486_draw_bitmap t hw ili x_start y_start x_end y_end color_data).2.bus
        = hw.bus ++ (spec_column_set ili.handle caset ++ spec_row_set ili.handle raset
            ++ spec_memory_write ili.handle ++ spec_payload ili.handle payload) := by
  have hc : CONV_BUF_PIXELS = 25600 := rfl
  have hs : to_size_t ((x_end - x_start) * (y_end - y_start)) = n := by
    rw [hn]
    exact to_size_t_of_nat n (by omega)
  rw [draw_bitmap_eq, hs, if_neg (by omega)]
  exact ⟨addr_bytes (wrap_int (x_start + ili.x_gap)) (wrap_int (x_end + ili.x_gap)),
    addr_bytes (wrap_int (y_start + ili.y_gap)) (wrap_int (y_end + ili.y_gap)),
    payload_bytes hw.s_conv_buf color_data n,
    addr_bytes_length _ _, addr_bytes_length _ _,
    payload_bytes_length _ _ n hcap, by simp only [window_calls, List.append_assoc]⟩

/-- C4 on the one-pixel rectangle `(0, 0, 1, 1)`. -/
theorem draw_bitmap_four_transactions_witness :
    ∃ caset raset payload,
      caset.length = 8 ∧ raset.length = 8 ∧ payload.length = 3 * 1
      ∧ (panel_ili9486_draw_bitmap transport_ok hw0 panel0 0 0 1 1 (fun _ => 0xF800)).2.bus
        = hw0.bus ++ (spec_column_set panel0.handle caset ++ spec_row_set panel0.handle raset
            ++ spec_memory_write panel0.handle ++ spec_payload panel0.handle payload) :=
  draw_bitmap_four_transactions transport_ok hw0 panel0 0 0 1 1 (fun _ => 0xF800) 1
    (by decide) (by decide)

/-- C5 (as stated, refuted): the rectangle `(0, 0, 65536, 65536)` has non-negative
width and height and `65536 * 65536 > 25600` pixels, yet the 32-bit count is 0: the
call is not rejected, the memory-write opcode and an empty payload are sent and the
transport's result is returned. -/
theorem draw_bitmap_size_check_counterexample :
    (0 : Int) ≤ 65536 - 0 ∧ (25600 : Int) < (65536 - 0) * (65536 - 0)
    ∧ (panel_ili9486_draw_bitmap transport_ok hw0 panel0 0 0 65536 65536 (fun _ => 0)).1
        = ESP_OK
    ∧ (panel_ili9486_draw_bitmap transport_ok hw0 panel0 0 0 65536 65536 (fun _ => 0)).1
        ≠ ESP_ERR_INVALID_SIZE
    ∧ (panel_ili9486_draw_bitmap transport_ok hw0 panel0 0 0 65536 65536 (fun _ => 0)).2.bus
        = spec_column_set 1 [0, 0, 0, 0, 0, 0xFF, 0, 0xFF]
          ++ spec_row_set 1 [0, 0, 0, 0, 0, 0xFF, 0, 0xFF]
          ++ spec_memory_write 1 ++ spec_payload 1 [] := by
  refine ⟨by decide, by decide, ?_, ?_, ?_⟩
  · rw [draw_bitmap_eq]; decide
  · rw [draw_bitmap_eq]; decide
  · rw [draw_bitmap_eq]
    simp only [window_calls, addr_bytes_wrap, hi_byte_eq, lo_byte_eq]
    decide

/-- C5 (amended): for every rectangle with non-negative width and height whose pixel
count `(x_end - x_start) * (y_end - y_start)` fits the 32-bit `int`, a count above
25600 makes draw return `ESP_ERR_INVALID_SIZE` with the conversion buffer untouched
and only the two address-set transactions sent; a count of at most 25600 is not
rejected: the memory-write opcode and one payload of `3 * count` bytes are sent and the
payload call's result is returned. -/
theorem draw_bitmap_size_check (t : Transport) (hw : Hw) (ili : ili9486_panel_t)
    (x_start y_start x_end y_end : Int) (color_data : Nat → Nat)
    (hwid : 0 ≤ x_end - x_start) (hhei : 0 ≤ y_end - y_start)
    (hfit : (x_end - x_start) * (y_end - y_start) < 2 ^ 31) :
    ((25600 : Int) < (x_end - x_start) * (y_end - y_start) →
      (panel_ili9486_draw_bitmap t hw ili x_start y_start x_end y_end color_data).1
          = ESP_ERR_INVALID_SIZE
      ∧ (panel_ili9486_draw_bitmap t hw ili x_start y_start x_end y_end color_data).2.s_conv_buf
          = hw.s_conv_buf
      ∧ ∃ caset raset,
          (panel_ili9486_draw_bitmap t hw ili x_start y_start x_end y_end color_data).2.bus
            = hw.bus ++ (spec_column_set ili.handle caset ++ spec_row_set ili.handle raset))
    ∧ ((x_end - x_start) * (y_end - y_start) ≤ 25600 →
      ∃ caset raset payload,
        payload.length = 3 * ((x_end - x_start) * (y_end - y_start)).toNat
        ∧ (panel_ili9486_draw_bitmap t hw ili x_start y_start x_end y_end color_data).2.bus
            = hw.bus ++ (spec_column_set ili.handle caset ++ spec_row_set ili.handle raset
                ++ spec_memory_write ili.handle ++ spec_payload ili.handle payload)
        ∧ (panel_ili9486_draw_bitmap t hw ili x_start y_start x_end y_end color_data).1
            = t (hw.bus ++ (spec_column_set ili.handle caset ++ spec_row_set ili.handle raset
                ++ spec_memory_write ili.handle))
              ⟨IoKind.tx_color, ili.handle, -1, payload⟩) := by
  have hc : CONV_BUF_PIXELS = 25600 := rfl
  have hp : 0 ≤ (x_end - x_start) * (y_end - y_start) := Int.mul_nonneg hwid hhei
  have hs : to_size_t ((x_end - x_start) * (y_end - y_start))
      = ((x_end - x_start) * (y_end - y_start)).toNat := by
    unfold to_size_t
    congr 1
    omega
  rw [draw_bitmap_eq, hs]
  constructor
  · intro hbig
    rw [if_pos (by omega)]
    exact ⟨rfl, rfl,
      addr_bytes (wrap_int (x_start + ili.x_gap)) (wrap_int (x_end + ili.x_gap)),
      addr_bytes (wrap_int (y_start + ili.y_gap)) (wrap_int (y_end + ili.y_gap)), rfl⟩
  · intro hsmall
    rw [if_neg (by omega)]
    exact ⟨addr_bytes (wrap_int (x_start + ili.x_gap)) (wrap_int (x_end + ili.x_gap)),
      addr_bytes (wrap_int (y_start + ili.y_gap)) (wrap_int (y_end + ili.y_gap)),
      payload_bytes hw.s_conv_buf color_data ((x_end - x_start) * (y_end - y_start)).toNat,
      payload_bytes_length _ _ _ (by omega),
      by simp only [window_calls, List.append_assoc],
      by simp only [window_calls, List.append_assoc]⟩

/-- C5 (amended) on the rectangle `(0, 0, 161, 160)` of 25760 pixels: rejected. -/
theorem draw_bitmap_size_check_witness :
    (panel_ili9486_draw_bitmap transport_ok hw0 panel0 0 0 161 160 (fun _ => 0)).1
      = ESP_ERR_INVALID_SIZE :=
  ((draw_bitmap_size_check transport_ok hw0 panel0 0 0 161 160 (fun _ => 0)
    (by decide) (by decide) (by decide)).1 (by decide)).1

/-- C6 (as stated, refuted): the rectangle `(0, 0, 161, 160)` of 25760 pixels is
rejected with `ESP_ERR_INVALID_SIZE`, but the transport has received the column-set
and the row-set transactions (four calls), not zero. -/
theorem draw_bitmap_oversize_counterexample :
    CONV_BUF_PIXELS < 161 * 160
    ∧ (panel_ili9486_draw_bitmap transport_ok hw0 panel0 0 0 161 160 (fun _ => 0)).1
        = ESP_ERR_INVALID_SIZE
    ∧ (panel_ili9486_draw_bitmap transport_ok hw0 panel0 0 0 161 160 (fun _ => 0)).2.bus
        = spec_column_set 1 [0, 0, 0, 0, 0, 0, 0, 160]
          ++ spec_row_set 1 [0, 0, 0, 0, 0, 0, 0, 159]
    ∧ (panel_ili9486_draw_bitmap transport_ok hw0 panel0 0 0 161 160 (fun _ => 0)).2.bus
        ≠ hw0.bus := by
  decide

/-- C6 (amended): a blit whose pixel count (the product as a `size_t`) exceeds the
capacity fails with `ESP_ERR_INVALID_SIZE` after transmitting the column-set and
row-set transactions only: no memory-write opcode and no payload is sent, and the
conversion buffer is untouched. -/
theorem draw_bitmap_oversize (t : Transport) (hw : Hw) (ili : ili9486_panel_t)
    (x_start y_start x_end y_end : Int) (color_data : Nat → Nat)
    (hbig : CONV_BUF_PIXELS < to_size_t ((x_end - x_start) * (y_end - y_start))) :
    (panel_ili9486_draw_bitmap t hw ili x_start y_start x_end y_end color_data).1
        = ESP_ERR_INVALID_SIZE
    ∧ (∃ caset raset, caset.length = 8 ∧ raset.length = 8
        ∧ (panel_ili9486_draw_bitmap t hw ili x_start y_start x_end y_end color_data).2.bus
          = hw.bus ++ (spec_column_set ili.handle caset ++ spec_row_set ili.handle raset))
    ∧ (panel_ili9486_draw_bitmap t hw ili x_start y_start x_end y_end color_data).2.s_conv_buf
        = hw.s_conv_buf := by
  rw [draw_bitmap_eq, if_pos hbig]
  exact ⟨rfl,
    ⟨addr_bytes (wrap_int (x_start + ili.x_gap)) (wrap_int (x_end + ili.x_gap)),
      addr_bytes (wrap_int (y_start + ili.y_gap)) (wrap_int (y_end + ili.y_gap)),
      addr_bytes_length _ _, addr_bytes_length _ _, rfl⟩, rfl⟩

/-- C6 (amended) on the rectangle `(0, 0, 161, 160)`. -/
theorem draw_bitmap_oversize_witness :
    (panel_ili9486_draw_bitmap transport_fail hw0 panel0 0 0 161 160 (fun _ => 0)).1
      = ESP_ERR_INVALID_SIZE :=
  (draw_bitmap_oversize transport_fail hw0 panel0 0 0 161 160 (fun _ => 0) (by decide)).1

/-- C7: draw on a panel with gap `(gx, gy)` and rectangle `(x0, y0, x1, y1)` has the
same result and leaves the same transport log and buffer as draw on a panel with gap
`(0, 0)` and rectangle `(x0 + gx, y0 + gy, x1 + gx, y1 + gy)`; the pixel count, the
converted buffer and the calls after the two address-set transactions are the same
under any other gap `(gx2, gy2)`. -/
theorem draw_bitmap_gap_shift (t : Transport) (hw : Hw) (ili : ili9486_panel_t)
    (gx gy x0 y0 x1 y1 : Int) (color_data : Nat → Nat) :
    panel_ili9486_draw_bitmap t hw { ili with x_gap := gx, y_gap := gy } x0 y0 x1 y1
        color_data
      = panel_ili9486_draw_bitmap t hw { ili with x_gap := 0, y_gap := 0 }
          (x0 + gx) (y0 + gy) (x1 + gx) (y1 + gy) color_data
    ∧ ∀ gx2 gy2 : Int,
        pixel_count (wrap_int (x0 + gx)) (wrap_int (y0 + gy)) (wrap_int (x1 + gx))
            (wrap_int (y1 + gy))
          = pixel_count (wrap_int (x0 + gx2)) (wrap_int (y0 + gy2)) (wrap_int (x1 + gx2))
            (wrap_int (y1 + gy2))
        ∧ (panel_ili9486_draw_bitmap t hw { ili with x_gap := gx, y_gap := gy } x0 y0 x1 y1
              color_data).2.s_conv_buf
          = (panel_ili9486_draw_bitmap t hw { ili with x_gap := gx2, y_gap := gy2 } x0 y0 x1
              y1 color_data).2.s_conv_buf
        ∧ (panel_ili9486_draw_bitmap t hw { ili with x_gap := gx, y_gap := gy } x0 y0 x1 y1
              color_data).2.bus.drop (hw.bus.length + 4)
          = (panel_ili9486_draw_bitmap t hw { ili with x_gap := gx2, y_gap := gy2 } x0 y0 x1
              y1 color_data).2.bus.drop (hw.bus.length + 4) := by
  have hwin : ∀ (p : ili9486_panel_t) (a b c d : Int),
      (window_calls p a b c d).length = 4 := fun _ _ _ _ _ => rfl
  constructor
  · rw [draw_bitmap_eq, draw_bitmap_eq]
    simp only [window_calls, add_zero, add_sub_add_right_eq_sub]
  · intro gx2 gy2
    refine ⟨by rw [pixel_count_eq, pixel_count_eq], ?_, ?_⟩
    · rw [draw_bitmap_eq, draw_bitmap_eq]
      split <;> rfl
    · rw [draw_bitmap_eq, draw_bitmap_eq]
      split
      · simp only [List.drop_append_eq_append_drop, List.length_append, hwin]
        simp
        rfl
      · simp only [List.append_assoc]
        simp only [List.drop_append_eq_append_drop, List.length_append, hwin]
        simp
        rfl

/-- C8 (as stated, refuted): on a transport whose every call fails, the first call
(the column-set opcode) reports failure and draw still issues the five calls that
follow it. -/
theorem draw_bitmap_continues_after_failure :
    transport_fail [] ⟨IoKind.tx_param, 1, 0x2A, []⟩ ≠ ESP_OK
    ∧ (panel_ili9486_draw_bitmap transport_fail hw0 panel0 0 0 1 1 (fun _ => 0xF800)).2.bus
        = [⟨IoKind.tx_param, 1, 0x2A, []⟩, ⟨IoKind.tx_color, 1, -1, [0, 0, 0, 0, 0, 0, 0, 0]⟩,
           ⟨IoKind.tx_param, 1, 0x2B, []⟩, ⟨IoKind.tx_color, 1, -1, [0, 0, 0, 0, 0, 0, 0, 0]⟩,
           ⟨IoKind.tx_param, 1, 0x2C, []⟩, ⟨IoKind.tx_color, 1, -1, [0xF8, 0, 0]⟩] := by
  decide

/-- C8 (amended): the transport calls a draw call issues, and the buffer it leaves,
do not depend on what the transport reports: they are the same under every two
transport behaviours, so a failure reported for the column-set, row-set or
memory-write transaction does not stop the following ones; draw issues no call after
the payload, the last one. -/
theorem draw_bitmap_calls_ignore_results (t1 t2 : Transport) (hw : Hw)
    (ili : ili9486_panel_t) (x_start y_start x_end y_end : Int) (color_data : Nat → Nat) :
    (panel_ili9486_draw_bitmap t1 hw ili x_start y_start x_end y_end color_data).2.bus
      = (panel_ili9486_draw_bitmap t2 hw ili x_start y_start x_end y_end color_data).2.bus
    ∧ (panel_ili9486_draw_bitmap t1 hw ili x_start y_start x_end y_end color_data).2.s_conv_buf
      = (panel_ili9486_draw_bitmap t2 hw ili x_start y_start x_end y_end
          color_data).2.s_conv_buf
    ∧ ((panel_ili9486_draw_bitmap t1 hw ili x_start y_start x_end y_end color_data).1
          = ESP_ERR_INVALID_SIZE
        ∨ ∃ before payload,
          (panel_ili9486_draw_bitmap t1 hw ili x_start y_start x_end y_end color_data).2.bus
            = before ++ spec_payload ili.handle payload) := by
  rw [draw_bitmap_eq, draw_bitmap_eq]
  split
  · exact ⟨rfl, rfl, Or.inl rfl⟩
  · exact ⟨rfl, rfl, Or.inr ⟨_, _, rfl⟩⟩

/-- C9 (as stated, refuted): on a transport whose first call fails and whose other
calls succeed, the column-set opcode reports failure and draw returns `ESP_OK`. -/
theorem draw_bitmap_success_after_failure :
    transport_fail_first [] ⟨IoKind.tx_param, 1, 0x2A, []⟩ = ESP_FAIL
    ∧ ESP_FAIL ≠ ESP_OK
    ∧ (panel_ili9486_draw_bitmap transport_fail_first hw0 panel0 0 0 1 1
        (fun _ => 0xF800)).1 = ESP_OK := by
  decide

/-- C9 (amended): draw returns `ESP_ERR_INVALID_SIZE` when the pixel count (the product
as a `size_t`) exceeds the capacity, and otherwise exactly the result the transport
reports for the payload transaction, the last call of the log, whatever the earlier
transactions reported; in particular draw returns success only if the payload
transaction succeeded. -/
theorem draw_bitmap_result (t : Transport) (hw : Hw) (ili : ili9486_panel_t)
    (x_start y_start x_end y_end : Int) (color_data : Nat → Nat) :
    (CONV_BUF_PIXELS < to_size_t ((x_end - x_start) * (y_end - y_start))
      ∧ (panel_ili9486_draw_bitmap t hw ili x_start y_start x_end y_end color_data).1
          = ESP_ERR_INVALID_SIZE)
    ∨ (to_size_t ((x_end - x_start) * (y_end - y_start)) ≤ CONV_BUF_PIXELS
      ∧ ∃ before payload,
          (panel_ili9486_draw_bitmap t hw ili x_start y_start x_end y_end color_data).2.bus
            = before ++ [⟨IoKind.tx_color, ili.handle, -1, payload⟩]
          ∧ (panel_ili9486_draw_bitmap t hw ili x_start y_start x_end y_end color_data).1
            = t before ⟨IoKind.tx_color, ili.handle, -1, payload⟩) := by
  rw [draw_bitmap_eq]
  by_cases h : CONV_BUF_PIXELS < to_size_t ((x_end - x_start) * (y_end - y_start))
  · rw [if_pos h]
    exact Or.inl ⟨h, rfl⟩
  · rw [if_neg h]
    exact Or.inr ⟨by omega, _, _, rfl, rfl⟩

/-- C10: for every 8-bit mode register `m` and all booleans, after the mirror
operation the register is `(m & 0x3F) | (mx ? 0x40 : 0) | (my ? 0x80 : 0)` and after
the swap operation it is `(m & 0xDF) | (swap ? 0x20 : 0)`, whatever the transport
reports. -/
theorem mirror_swap_register (t : Transport) (hw : Hw) (ili : ili9486_panel_t)
    (mx my swap : Bool) (hm : ili.madctl < 256) :
    (panel_ili9486_mirror t hw ili mx my).2.2.madctl
        = ((ili.madctl &&& 0x3F) ||| (if mx then 0x40 else 0)) ||| (if my then 0x80 else 0)
    ∧ (panel_ili9486_swap_xy t hw ili swap).2.2.madctl
        = (ili.madctl &&& 0xDF) ||| (if swap then 0x20 else 0) := by
  exact ⟨(madctl_bits ili.madctl hm mx my).1, (madctl_bits ili.madctl hm swap swap).2⟩

/-- C10 on the constructor's register `0x48`: mirror `(true, false)` gives `0x48`,
swap `true` gives `0x68`. -/
theorem mirror_swap_register_witness :
    (panel_ili9486_mirror transport_ok hw0 panel0 true false).2.2.madctl
        = ((0x48 &&& 0x3F) ||| (if true then 0x40 else 0)) ||| (if false then 0x80 else 0)
    ∧ (panel_ili9486_swap_xy transport_ok hw0 panel0 true).2.2.madctl
        = (0x48 &&& 0xDF) ||| (if true then 0x20 else 0) :=
  mirror_swap_register transport_ok hw0 panel0 true false true (by decide)

/-! ## Lemmas on the state after one operation -/

/-- One operation keeps the register in agreement with the last `0x36` parameter,
provided an `init` is called only while the register is `0x48`. -/
theorem step_in_sync (t : Transport) (s : Driver) (op : Op) (hs : madctl_in_sync s)
    (hinit : op = Op.init → s.ili.madctl = 0x48) : madctl_in_sync (step t s op) := by
  unfold madctl_in_sync at hs ⊢
  cases op with
  | reset => exact hs
  | init =>
    right
    simp only [step, panel_ili9486_init, init_sequence_eq, last_madctl_init]
    rw [hinit rfl]
  | draw_bitmap a b c d cd =>
    simp only [step, last_madctl_draw]
    exact hs
  | mirror mx my =>
    right
    simp [step, panel_ili9486_mirror, ili9486_send, esp_lcd_panel_io_tx_param,
      last_madctl_append_one]
  | swap_xy b =>
    right
    simp [step, panel_ili9486_swap_xy, ili9486_send, esp_lcd_panel_io_tx_param,
      last_madctl_append_one]
  | set_gap gx gy => exact hs
  | invert_color b =>
    have : last_madctl (step t s (Op.invert_color b)).hw.bus = last_madctl s.hw.bus := by
      cases b <;>
        simp [step, panel_ili9486_invert_color, esp_lcd_panel_io_tx_param,
          last_madctl_append_one, ILI9486_CMD_INVON, ILI9486_CMD_INVOFF, ILI9486_CMD_MADCTL]
    rw [this]
    exact hs
  | disp_on_off b =>
    have : last_madctl (step t s (Op.disp_on_off b)).hw.bus = last_madctl s.hw.bus := by
      cases b <;>
        simp [step, panel_ili9486_disp_on_off, esp_lcd_panel_io_tx_param,
          last_madctl_append_one, ILI9486_CMD_DISPON, ILI9486_CMD_MADCTL]
    rw [this]
    exact hs

/-- One operation keeps the register an 8-bit value with unchanged bits 0 to 4. -/
theorem step_low_bits (t : Transport) (s : Driver) (op : Op) (hm : s.ili.madctl < 256) :
    (step t s op).ili.madctl < 256
    ∧ (step t s op).ili.madctl &&& 0x1F = s.ili.madctl &&& 0x1F := by
  cases op with
  | reset => exact ⟨hm, rfl⟩
  | init => exact ⟨hm, rfl⟩
  | draw_bitmap a b c d cd => exact ⟨hm, rfl⟩
  | mirror mx my =>
    have h1 := madctl_low_bits s.ili.madctl hm mx
    have hlt : (if mx then (s.ili.madctl ||| 0x40) % 2 ^ 8
        else (s.ili.madctl &&& int_not 0x40) % 2 ^ 8) < 256 := by
      split <;> exact Nat.mod_lt _ (by norm_num)
    have h2 := madctl_low_bits _ hlt my
    constructor
    · show (if my then _ % 2 ^ 8 else _ % 2 ^ 8) < 256
      split <;> exact Nat.mod_lt _ (by norm_num)
    · exact h2.2.1.trans h1.1
  | swap_xy b =>
    have h1 := madctl_low_bits s.ili.madctl hm b
    constructor
    · show (if b then _ % 2 ^ 8 else _ % 2 ^ 8) < 256
      split <;> exact Nat.mod_lt _ (by norm_num)
    · exact h1.2.2
  | set_gap gx gy => exact ⟨hm, rfl⟩
  | invert_color b => exact ⟨hm, rfl⟩
  | disp_on_off b => exact ⟨hm, rfl⟩

/-- A sequence of operations keeps the register an 8-bit value with unchanged bits 0
to 4. -/
theorem run_low_bits (t : Transport) (ops : List Op) :
    ∀ s : Driver, s.ili.madctl < 256 →
      (run t s ops).ili.madctl < 256
      ∧ (run t s ops).ili.madctl &&& 0x1F = s.ili.madctl &&& 0x1F := by
  induction ops with
  | nil => exact fun s hm => ⟨hm, rfl⟩
  | cons op rest ih =>
    intro s hm
    have h1 := step_low_bits t s op hm
    have h2 := ih (step t s op) h1.1
    rw [run_cons]
    exact ⟨h2.1, h2.2.trans h1.2⟩

/-- The constructor gives a panel only with the default register, no gap, the given
handle and the configured reset line. -/
theorem new_panel_some (hw : Hw) (handle : Nat) (cfg : Option esp_lcd_panel_dev_config_t)
    (ret_panel calloc_ok : Bool) (p : ili9486_panel_t)
    (h : (esp_lcd_new_panel_ili9486 hw handle cfg ret_panel calloc_ok).2.2 = some p) :
    ∃ c, cfg = some c ∧ p = ⟨handle, c.reset_gpio_num, 0, 0, 0x48, false⟩ := by
  unfold esp_lcd_new_panel_ili9486 at h
  cases cfg with
  | none => simp at h
  | some c =>
    refine ⟨c, rfl, ?_⟩
    simp only at h
    split at h
    · simp at h
    · split at h
      · simp at h
      · simpa using h.symm

/-! ## Claims on orientation, initialisation and construction -/

/-- C11: every mirror call and every swap call adds exactly one call to the transport
log, `tx_param` with opcode `0x36` and the single parameter byte equal to the register
as the call leaves it, and returns what the transport reports for that call. -/
theorem mirror_swap_one_transaction (t : Transport) (hw : Hw) (ili : ili9486_panel_t)
    (mx my swap : Bool) :
    (panel_ili9486_mirror t hw ili mx my).2.1.bus
        = hw.bus ++ [⟨IoKind.tx_param, ili.handle, 0x36,
            [(panel_ili9486_mirror t hw ili mx my).2.2.madctl]⟩]
    ∧ (panel_ili9486_mirror t hw ili mx my).1
        = t hw.bus ⟨IoKind.tx_param, ili.handle, 0x36,
            [(panel_ili9486_mirror t hw ili mx my).2.2.madctl]⟩
    ∧ (panel_ili9486_swap_xy t hw ili swap).2.1.bus
        = hw.bus ++ [⟨IoKind.tx_param, ili.handle, 0x36,
            [(panel_ili9486_swap_xy t hw ili swap).2.2.madctl]⟩]
    ∧ (panel_ili9486_swap_xy t hw ili swap).1
        = t hw.bus ⟨IoKind.tx_param, ili.handle, 0x36,
            [(panel_ili9486_swap_xy t hw ili swap).2.2.madctl]⟩ :=
  ⟨rfl, rfl, rfl, rfl⟩

/-- C12 (as stated, refuted): on a transport where every call succeeds, the sequence
swap `true`, then init, from the constructed panel leaves the in-memory register at
`0x68` while the most recent `0x36` transaction, the one sent by init, carried
`0x48`. -/
theorem madctl_out_of_sync_after_init :
    (run transport_ok ⟨hw0, panel0⟩ [Op.swap_xy true, Op.init]).ili.madctl = 0x68
    ∧ last_madctl (run transport_ok ⟨hw0, panel0⟩ [Op.swap_xy true, Op.init]).hw.bus
        = some [0x48]
    ∧ ¬ madctl_in_sync (run transport_ok ⟨hw0, panel0⟩ [Op.swap_xy true, Op.init]) := by
  have h1 : (run transport_ok ⟨hw0, panel0⟩ [Op.swap_xy true, Op.init]).ili.madctl = 0x68 := by
    decide
  have h2 : last_madctl (run transport_ok ⟨hw0, panel0⟩ [Op.swap_xy true, Op.init]).hw.bus
      = some [0x48] := by
    decide
  refine ⟨h1, h2, ?_⟩
  unfold madctl_in_sync
  rw [h2, h1]
  decide

/-- C12 (amended): for every sequence of public operations in which init is called
only while the in-memory register holds `0x48`, the value init transmits, and for
every transport behaviour, after each operation the in-memory register equals the
parameter byte of the most recent `0x36` transaction, whenever one has been sent. -/
theorem madctl_in_sync_run (t : Transport) (ops : List Op) :
    ∀ s : Driver, madctl_in_sync s → init_only_at_default t s ops →
      ∀ k, madctl_in_sync (run t s (ops.take k)) := by
  induction ops with
  | nil =>
    intro s hs _ k
    simpa [run_nil] using hs
  | cons op rest ih =>
    intro s hs hd k
    cases k with
    | zero => simpa [run_nil] using hs
    | succ j =>
      rw [List.take_succ_cons, run_cons]
      cases op with
      | init =>
        simp only [init_only_at_default] at hd
        exact ih _ (step_in_sync t s Op.init hs (fun _ => hd.1)) hd.2 j
      | reset =>
        simp only [init_only_at_default] at hd
        exact ih _ (step_in_sync t s _ hs (fun h => by cases h)) hd j
      | draw_bitmap a b c d cd =>
        simp only [init_only_at_default] at hd
        exact ih _ (step_in_sync t s _ hs (fun h => by cases h)) hd j
      | mirror mx my =>
        simp only [init_only_at_default] at hd
        exact ih _ (step_in_sync t s _ hs (fun h => by cases h)) hd j
      | swap_xy b =>
        simp only [init_only_at_default] at hd
        exact ih _ (step_in_sync t s _ hs (fun h => by cases h)) hd j
      | set_gap gx gy =>
        simp only [init_only_at_default] at hd
        exact ih _ (step_in_sync t s _ hs (fun h => by cases h)) hd j
      | invert_color b =>
        simp only [init_only_at_default] at hd
        exact ih _ (step_in_sync t s _ hs (fun h => by cases h)) hd j
      | disp_on_off b =>
        simp only [init_only_at_default] at hd
        exact ih _ (step_in_sync t s _ hs (fun h => by cases h)) hd j

/-- C12 (amended) on the sequence init, mirror, draw, swap from the constructed panel,
with a transport whose every call fails. -/
theorem madctl_in_sync_run_witness :
    madctl_in_sync (run transport_fail ⟨hw0, panel0⟩
      ([Op.init, Op.mirror false true, Op.draw_bitmap 0 0 1 1 (fun _ => 0),
        Op.swap_xy true].take 4)) :=
  madctl_in_sync_run transport_fail
    [Op.init, Op.mirror false true, Op.draw_bitmap 0 0 1 1 (fun _ => 0), Op.swap_xy true]
    ⟨hw0, panel0⟩ (Or.inl (by decide))
    (by simp [init_only_at_default, panel0]) 4

/-- C13 (as stated, refuted): on a transport whose every call fails, swap `true` on the
constructed panel returns the error and leaves the register at `0x68`, not at its
prior value `0x48`. -/
theorem swap_xy_not_rolled_back :
    (panel_ili9486_swap_xy transport_fail hw0 panel0 true).1 = ESP_FAIL
    ∧ ESP_FAIL ≠ ESP_OK
    ∧ panel0.madctl = 0x48
    ∧ (panel_ili9486_swap_xy transport_fail hw0 panel0 true).2.2.madctl = 0x68
    ∧ (panel_ili9486_swap_xy transport_fail hw0 panel0 true).2.2.madctl ≠ panel0.madctl := by
  decide

/-- C13 (amended): a mirror or swap call returns what the transport reports for its
mode-register transaction, so a failure is returned as an error; the panel object it
leaves is the same under every transport behaviour: the register keeps the updated
value that was transmitted and is not rolled back. -/
theorem mirror_swap_keeps_update (t1 t2 : Transport) (hw : Hw) (ili : ili9486_panel_t)
    (mx my swap : Bool) :
    (panel_ili9486_mirror t1 hw ili mx my).1
        = t1 hw.bus ⟨IoKind.tx_param, ili.handle, 0x36,
            [(panel_ili9486_mirror t1 hw ili mx my).2.2.madctl]⟩
    ∧ (panel_ili9486_mirror t1 hw ili mx my).2.2 = (panel_ili9486_mirror t2 hw ili mx my).2.2
    ∧ (panel_ili9486_swap_xy t1 hw ili swap).1
        = t1 hw.bus ⟨IoKind.tx_param, ili.handle, 0x36,
            [(panel_ili9486_swap_xy t1 hw ili swap).2.2.madctl]⟩
    ∧ (panel_ili9486_swap_xy t1 hw ili swap).2.2
        = (panel_ili9486_swap_xy t2 hw ili swap).2.2 :=
  ⟨rfl, rfl, rfl, rfl⟩

/-- C14: on a panel just given by the constructor, mirror `(true, false)` followed by
swap `true` leaves the register at `0x68`, the default `0x48` with bits 6 and 5 set and
bit 7 clear. -/
theorem fresh_mirror_then_swap (t : Transport) (hw : Hw) (handle : Nat)
    (cfg : Option esp_lcd_panel_dev_config_t) (ret_panel calloc_ok : Bool)
    (p : ili9486_panel_t)
    (h : (esp_lcd_new_panel_ili9486 hw handle cfg ret_panel calloc_ok).2.2 = some p) :
    p.madctl = 0x48
    ∧ (panel_ili9486_swap_xy t (panel_ili9486_mirror t hw p true false).2.1
        (panel_ili9486_mirror t hw p true false).2.2 true).2.2.madctl = 0x68
    ∧ 0x68 = (0x48 ||| 0x40) ||| 0x20
    ∧ 0x68 &&& 0x80 = 0 := by
  obtain ⟨c, _, rfl⟩ := new_panel_some hw handle cfg ret_panel calloc_ok p h
  refine ⟨rfl, ?_, by decide, by decide⟩
  show (((0x48 ||| 0x40) % 2 ^ 8 &&& int_not 0x80) % 2 ^ 8 ||| 0x20) % 2 ^ 8 = 0x68
  decide

/-- C14 for the panel constructed on handle 1 without a reset line. -/
theorem fresh_mirror_then_swap_witness :
    (panel_ili9486_swap_xy transport_ok (panel_ili9486_mirror transport_ok hw0 panel0 true
        false).2.1 (panel_ili9486_mirror transport_ok hw0 panel0 true false).2.2
      true).2.2.madctl = 0x68 :=
  (fresh_mirror_then_swap transport_ok hw0 1 (some ⟨-1⟩) true true panel0 (by decide)).2.1

/-- C15: in every state reached from a panel just given by the constructor by a finite
sequence of public operations, with any arguments and any transport behaviour, bits 0
to 4 of the register are those of the default: `register & 0x1F = 0x48 & 0x1F = 0x08`. -/
theorem madctl_fixed_bits (t : Transport) (hw : Hw) (handle : Nat)
    (cfg : Option esp_lcd_panel_dev_config_t) (ret_panel calloc_ok : Bool)
    (p : ili9486_panel_t) (ops : List Op)
    (h : (esp_lcd_new_panel_ili9486 hw handle cfg ret_panel calloc_ok).2.2 = some p) :
    (run t ⟨hw, p⟩ ops).ili.madctl &&& 0x1F = 0x48 &&& 0x1F
    ∧ 0x48 &&& 0x1F = 0x08 := by
  obtain ⟨c, _, rfl⟩ := new_panel_some hw handle cfg ret_panel calloc_ok p h
  exact ⟨(run_low_bits t ops ⟨hw, _⟩ (by show 0x48 < 256; decide)).2, by decide⟩

/-- C15 on the sequence mirror, init, swap, reset from the panel constructed on
handle 1. -/
theorem madctl_fixed_bits_witness :
    (run transport_fail_first ⟨hw0, panel0⟩
      [Op.mirror true true, Op.init, Op.swap_xy true, Op.reset]).ili.madctl &&& 0x1F
      = 0x48 &&& 0x1F :=
  (madctl_fixed_bits transport_fail_first hw0 1 (some ⟨-1⟩) true true panel0
    [Op.mirror true true, Op.init, Op.swap_xy true, Op.reset] (by decide)).1

/-- C16: for every panel state and transport behaviour, init adds to the transport log
exactly fifteen calls, each a `tx_param` on the panel's handle, with the opcodes
`01 11 B0 B1 B4 B6 B7 C0 C1 C5 E0 E1 3A 36 29` in this order; software reset, sleep-out
and display-on carry no parameter, the pixel format carries `[0x66]` and the mode
register one byte; the conversion buffer and the panel object are left as they were. -/
theorem init_fifteen_transactions (t : Transport) (hw : Hw) (ili : ili9486_panel_t) :
    (∃ calls,
      (panel_ili9486_init t hw ili).2.1.bus = hw.bus ++ calls
      ∧ calls.length = 15
      ∧ calls.map IoCall.lcd_cmd
          = [0x01, 0x11, 0xB0, 0xB1, 0xB4, 0xB6, 0xB7, 0xC0, 0xC1, 0xC5, 0xE0, 0xE1, 0x3A,
             0x36, 0x29]
      ∧ calls.map IoCall.data
          = [[], [], [0x00], [0xB0, 0x11], [0x02], [0x02, 0x22], [0xC6], [0x0D, 0x0D], [0x41],
             [0x00, 0x18],
             [0x0F, 0x1F, 0x1C, 0x0C, 0x0F, 0x08, 0x48, 0x98, 0x37, 0x0A, 0x13, 0x04, 0x11,
              0x0D, 0x00],
             [0x0F, 0x32, 0x2E, 0x0B, 0x0D, 0x05, 0x47, 0x75, 0x37, 0x06, 0x10, 0x03, 0x24,
              0x20, 0x00],
             [0x66], [0x48], []]
      ∧ ∀ c ∈ calls, c.kind = IoKind.tx_param ∧ c.handle = ili.handle)
    ∧ (panel_ili9486_init t hw ili).2.1.s_conv_buf = hw.s_conv_buf
    ∧ (panel_ili9486_init t hw ili).2.2 = ili := by
  refine ⟨⟨init_calls ili.handle, ?_, rfl, rfl, rfl, ?_⟩, ?_, rfl⟩
  · simp only [panel_ili9486_init, init_sequence_eq]
  · intro c hc
    simp only [init_calls, List.mem_cons, List.mem_singleton, List.not_mem_nil, or_false] at hc
    rcases hc with rfl | rfl | rfl | rfl | rfl | rfl | rfl | rfl | rfl | rfl | rfl | rfl | rfl
      | rfl | rfl <;> exact ⟨rfl, rfl⟩
  · simp only [panel_ili9486_init, init_sequence_eq]

/-- C17 (as stated, refuted): on a transport whose every call fails, the first
transmission of init (the software reset) reports failure and init returns `ESP_OK`. -/
theorem init_hides_failure :
    transport_fail [] ⟨IoKind.tx_param, 1, 0x01, []⟩ = ESP_FAIL
    ∧ ESP_FAIL ≠ ESP_OK
    ∧ (panel_ili9486_init transport_fail hw0 panel0).1 = ESP_OK := by
  decide

/-- C17 (amended): init returns success under every transport behaviour, so a failure
of any of its transmission steps is not reported to the caller; the calls it issues are
the same fifteen whatever each of them reports. -/
theorem init_result_always_ok (t1 t2 : Transport) (hw : Hw) (ili : ili9486_panel_t) :
    (panel_ili9486_init t1 hw ili).1 = ESP_OK
    ∧ (panel_ili9486_init t1 hw ili).2.1.bus = (panel_ili9486_init t2 hw ili).2.1.bus
    ∧ ((panel_ili9486_init t1 hw ili).2.1.bus.drop hw.bus.length).length = 15 := by
  refine ⟨rfl, ?_, ?_⟩
  · simp only [panel_ili9486_init, init_sequence_eq]
  · simp only [panel_ili9486_init, init_sequence_eq, List.drop_left]
    rfl

/-- C18: the colour-inversion call adds exactly one `tx_param` call without parameters,
opcode `0x21` for `true` and `0x20` for `false`; the display-power call adds exactly one
without parameters, opcode `0x29` for `true` and `0x28` for `false`; each returns what
the transport reports for its call and leaves the panel object and the conversion
buffer as they were, under every transport behaviour. -/
theorem invert_and_power_pass_through (t : Transport) (hw : Hw) (ili : ili9486_panel_t)
    (b : Bool) :
    (panel_ili9486_invert_color t hw ili b).2.1.bus
        = hw.bus ++ [⟨IoKind.tx_param, ili.handle, if b then 0x21 else 0x20, []⟩]
    ∧ (panel_ili9486_invert_color t hw ili b).1
        = t hw.bus ⟨IoKind.tx_param, ili.handle, if b then 0x21 else 0x20, []⟩
    ∧ (panel_ili9486_invert_color t hw ili b).2.2 = ili
    ∧ (panel_ili9486_invert_color t hw ili b).2.1.s_conv_buf = hw.s_conv_buf
    ∧ (panel_ili9486_disp_on_off t hw ili b).2.1.bus
        = hw.bus ++ [⟨IoKind.tx_param, ili.handle, if b then 0x29 else 0x28, []⟩]
    ∧ (panel_ili9486_disp_on_off t hw ili b).1
        = t hw.bus ⟨IoKind.tx_param, ili.handle, if b then 0x29 else 0x28, []⟩
    ∧ (panel_ili9486_disp_on_off t hw ili b).2.2 = ili
    ∧ (panel_ili9486_disp_on_off t hw ili b).2.1.s_conv_buf = hw.s_conv_buf := by
  cases b <;> exact ⟨rfl, rfl, rfl, rfl, rfl, rfl, rfl, rfl⟩

/-- C19: the constructor returns `ESP_ERR_INVALID_ARG` exactly when the handle, the
configuration or the output slot is absent, and then gives no panel and leaves the
transport log as it was; with all three present and memory available it returns
`ESP_OK` and a panel on the given handle with register `0x48`, inversion flag false,
gap `(0, 0)` and the configured reset line, again without any transport call. -/
theorem new_panel_contract (hw : Hw) (handle : Nat)
    (cfg : Option esp_lcd_panel_dev_config_t) (ret_panel calloc_ok : Bool) :
    ((esp_lcd_new_panel_ili9486 hw handle cfg ret_panel calloc_ok).1 = ESP_ERR_INVALID_ARG
        ↔ (handle = 0 ∨ cfg = none ∨ ret_panel = false))
    ∧ ((handle = 0 ∨ cfg = none ∨ ret_panel = false) →
        (esp_lcd_new_panel_ili9486 hw handle cfg ret_panel calloc_ok).2.2 = none)
    ∧ (esp_lcd_new_panel_ili9486 hw handle cfg ret_panel calloc_ok).2.1.bus = hw.bus
    ∧ (∀ c, handle ≠ 0 → cfg = some c → ret_panel = true → calloc_ok = true →
        (esp_lcd_new_panel_ili9486 hw handle cfg ret_panel calloc_ok).1 = ESP_OK
        ∧ (esp_lcd_new_panel_ili9486 hw handle cfg ret_panel calloc_ok).2.2
            = some ⟨handle, c.reset_gpio_num, 0, 0, 0x48, false⟩) := by
  have e1 : ESP_ERR_NO_MEM ≠ ESP_ERR_INVALID_ARG := by decide
  have e2 : ESP_OK ≠ ESP_ERR_INVALID_ARG := by decide
  unfold esp_lcd_new_panel_ili9486
  cases cfg with
  | none => simp
  | some c =>
    by_cases h0 : handle = 0
    · simp [h0]
    · cases ret_panel
      · simp [h0]
      · cases calloc_ok
        · simp [h0, e1]
        · simp [h0, e2]

/-- C19 for handle 1, a configuration with reset line 4, a present slot and memory
available. -/
theorem new_panel_contract_witness :
    (esp_lcd_new_panel_ili9486 hw0 1 (some ⟨4⟩) true true).1 = ESP_OK
    ∧ (esp_lcd_new_panel_ili9486 hw0 1 (some ⟨4⟩) true true).2.2
        = some ⟨1, 4, 0, 0, 0x48, false⟩ :=
  (new_panel_contract hw0 1 (some ⟨4⟩) true true).2.2.2 ⟨4⟩ (by decide) rfl rfl rfl

/-- One operation keeps the gaps non-negative when it is not a `set_gap` with a
negative argument. -/
theorem step_gaps (t : Transport) (s : Driver) (op : Op) (ops : List Op)
    (hs : 0 ≤ s.ili.x_gap ∧ 0 ≤ s.ili.y_gap) (hg : gaps_nonneg (op :: ops)) :
    (0 ≤ (step t s op).ili.x_gap ∧ 0 ≤ (step t s op).ili.y_gap) ∧ gaps_nonneg ops := by
  cases op with
  | reset => exact ⟨hs, hg⟩
  | init => exact ⟨hs, hg⟩
  | draw_bitmap a b c d cd => exact ⟨hs, hg⟩
  | mirror mx my => exact ⟨hs, hg⟩
  | swap_xy b => exact ⟨hs, hg⟩
  | set_gap gx gy =>
    simp only [gaps_nonneg] at hg
    exact ⟨⟨hg.1, hg.2.1⟩, hg.2.2⟩
  | invert_color b => exact ⟨hs, hg⟩
  | disp_on_off b => exact ⟨hs, hg⟩

/-- C20 (as stated, refuted): from the panel constructed on handle 1, the single
operation `set_gap(-1, -1)` leads to a state whose gaps are negative. -/
theorem set_gap_negative :
    (esp_lcd_new_panel_ili9486 hw0 1 (some ⟨-1⟩) true true).2.2 = some panel0
    ∧ (run transport_ok ⟨hw0, panel0⟩ [Op.set_gap (-1) (-1)]).ili.x_gap = -1
    ∧ (run transport_ok ⟨hw0, panel0⟩ [Op.set_gap (-1) (-1)]).ili.y_gap = -1
    ∧ ¬ (0 ≤ (run transport_ok ⟨hw0, panel0⟩ [Op.set_gap (-1) (-1)]).ili.x_gap) := by
  decide

/-- C20 (amended): the gaps are `(0, 0)` on a panel just given by the constructor, and
they are non-negative in every state reached from it by a finite sequence of public
operations whose `set_gap` calls have non-negative arguments, under every transport
behaviour. -/
theorem gaps_nonneg_run (t : Transport) (hw : Hw) (handle : Nat)
    (cfg : Option esp_lcd_panel_dev_config_t) (ret_panel calloc_ok : Bool)
    (p : ili9486_panel_t) (ops : List Op)
    (h : (esp_lcd_new_panel_ili9486 hw handle cfg ret_panel calloc_ok).2.2 = some p)
    (hg : gaps_nonneg ops) :
    (p.x_gap = 0 ∧ p.y_gap = 0)
    ∧ 0 ≤ (run t ⟨hw, p⟩ ops).ili.x_gap ∧ 0 ≤ (run t ⟨hw, p⟩ ops).ili.y_gap := by
  obtain ⟨c, _, rfl⟩ := new_panel_some hw handle cfg ret_panel calloc_ok p h
  refine ⟨⟨rfl, rfl⟩, ?_⟩
  have key : ∀ (l : List Op) (s : Driver), (0 ≤ s.ili.x_gap ∧ 0 ≤ s.ili.y_gap) →
      gaps_nonneg l → 0 ≤ (run t s l).ili.x_gap ∧ 0 ≤ (run t s l).ili.y_gap := by
    intro l
    induction l with
    | nil => exact fun s hs _ => hs
    | cons op rest ih =>
      intro s hs hl
      have h1 := step_gaps t s op rest hs hl
      rw [run_cons]
      exact ih _ h1.1 h1.2
  exact key ops ⟨hw, _⟩ ⟨le_refl _, le_refl _⟩ hg

/-- C20 (amended) on the sequence `set_gap(2, 3)`, mirror, `set_gap(0, 7)`. -/
theorem gaps_nonneg_run_witness :
    0 ≤ (run transport_ok ⟨hw0, panel0⟩
        [Op.set_gap 2 3, Op.mirror true true, Op.set_gap 0 7]).ili.x_gap
    ∧ 0 ≤ (run transport_ok ⟨hw0, panel0⟩
        [Op.set_gap 2 3, Op.mirror true true, Op.set_gap 0 7]).ili.y_gap :=
  (gaps_nonneg_run transport_ok hw0 1 (some ⟨-1⟩) true true panel0
    [Op.set_gap 2 3, Op.mirror true true, Op.set_gap 0 7] (by decide)
    (by simp [gaps_nonneg])).2

/-! ## Lemmas on the test colours -/

set_option maxRecDepth 1000000 in
/-- The masks of the test macro on every 8-bit value. -/
theorem channel_masks : ∀ v, v < 256 → v &&& 0xF8 = 8 * (v / 8) ∧ v &&& 0xFC = 4 * (v / 4) := by
  decide

/-- The packed colour of the test macro as a sum of its three fields. -/
theorem RGB565_eq (r g b : Nat) (hr : r < 256) (hg : g < 256) (hb : b < 256) :
    RGB565 r g b = 2048 * (r / 8) + 32 * (g / 4) + b / 8 := by
  have h1 : 2 ^ 5 * (g / 4) + b / 8 = 2 ^ 5 * (g / 4) ||| b / 8 :=
    Nat.mul_add_lt_is_or (by omega) _
  have h2 : 2 ^ 11 * (r / 8) + (2 ^ 5 * (g / 4) + b / 8)
      = 2 ^ 11 * (r / 8) ||| (2 ^ 5 * (g / 4) + b / 8) :=
    Nat.mul_add_lt_is_or (by omega) _
  have e1 : (r &&& 0xF8) <<< 8 = 2 ^ 11 * (r / 8) := by
    rw [(channel_masks r hr).1, Nat.shiftLeft_eq]
    omega
  have e2 : (g &&& 0xFC) <<< 3 = 2 ^ 5 * (g / 4) := by
    rw [(channel_masks g hg).2, Nat.shiftLeft_eq]
    omega
  have e3 : b >>> 3 = b / 8 := by
    rw [Nat.shiftRight_eq_div_pow]
  unfold RGB565
  rw [e1, e2, e3, Nat.or_assoc, ← h1, ← h2]
  omega

/-- The three bytes the conversion stores for a packed test colour. -/
theorem wire_byte_RGB565 (r g b : Nat) (hr : r < 256) (hg : g < 256) (hb : b < 256) :
    wire_byte (RGB565 r g b % 2 ^ 16) 0 = r &&& 0xF8
    ∧ wire_byte (RGB565 r g b % 2 ^ 16) 1 = g &&& 0xFC
    ∧ wire_byte (RGB565 r g b % 2 ^ 16) 2 = b &&& 0xF8 := by
  have hp := RGB565_eq r g b hr hg hb
  have hr8 := (channel_masks r hr).1
  have hg4 := (channel_masks g hg).2
  have hb8 := (channel_masks b hb).1
  have a1 : ∀ p : Nat, (p >>> 11) &&& 0x1F = (p / 2048) % 32 := by
    intro p
    have : (p >>> 11) &&& 0x1F = (p >>> 11) % 2 ^ 5 := Nat.and_pow_two_sub_one_eq_mod _ 5
    rw [this, Nat.shiftRight_eq_div_pow]
    rfl
  have a2 : ∀ p : Nat, (p >>> 5) &&& 0x3F = (p / 32) % 64 := by
    intro p
    have : (p >>> 5) &&& 0x3F = (p >>> 5) % 2 ^ 6 := Nat.and_pow_two_sub_one_eq_mod _ 6
    rw [this, Nat.shiftRight_eq_div_pow]
    rfl
  have a3 : ∀ p : Nat, p &&& 0x1F = p % 32 := by
    intro p
    exact Nat.and_pow_two_sub_one_eq_mod _ 5
  simp only [wire_byte, if_true, if_false, one_ne_zero, OfNat.ofNat_ne_zero,
    OfNat.ofNat_ne_one, a1, a2, a3, Nat.shiftLeft_eq]
  rw [hr8, hg4, hb8]
  omega

/-! ## Claims on the test colours, the buffer bounds and the emitted calls -/

/-- C21: for all channel values `r`, `g`, `b` in `0..255`, a sample equal to the tests'
`RGB565(r,g,b)` is converted to the bytes `r & 0xF8`, `g & 0xFC`, `b & 0xF8`, red first
and blue last; `RGB565(255,0,0)` is `0xF800` and gives `(0xF8, 0, 0)`, and the gradient
colour `RGB565(v, 0, 255 - v)` gives `(v & 0xF8, 0, (255 - v) & 0xF8)`. -/
theorem rgb565_macro_round_trip (src dst : Nat → Nat) (pixels i r g b : Nat)
    (hcap : 3 * pixels ≤ 2 ^ 32) (hi : i < pixels)
    (hr : r < 256) (hg : g < 256) (hb : b < 256) (hsrc : src i = RGB565 r g b) :
    (rgb565_to_rgb666 src dst pixels (3 * i), rgb565_to_rgb666 src dst pixels (3 * i + 1),
        rgb565_to_rgb666 src dst pixels (3 * i + 2))
      = (r &&& 0xF8, g &&& 0xFC, b &&& 0xF8)
    ∧ (r = 255 → g = 0 → b = 0 → src i = 0xF800
        ∧ (rgb565_to_rgb666 src dst pixels (3 * i),
            rgb565_to_rgb666 src dst pixels (3 * i + 1),
            rgb565_to_rgb666 src dst pixels (3 * i + 2)) = (0xF8, 0x00, 0x00))
    ∧ (g = 0 → b = 255 - r →
        (rgb565_to_rgb666 src dst pixels (3 * i),
            rgb565_to_rgb666 src dst pixels (3 * i + 1),
            rgb565_to_rgb666 src dst pixels (3 * i + 2))
          = (r &&& 0xF8, 0, (255 - r) &&& 0xF8)) := by
  have e0 := rgb565_to_rgb666_below src dst pixels hcap i 0 hi (by omega)
  have e1 := rgb565_to_rgb666_below src dst pixels hcap i 1 hi (by omega)
  have e2 := rgb565_to_rgb666_below src dst pixels hcap i 2 hi (by omega)
  rw [Nat.add_zero] at e0
  have w := wire_byte_RGB565 r g b hr hg hb
  rw [hsrc] at e0 e1 e2
  rw [w.1] at e0
  rw [w.2.1] at e1
  rw [w.2.2] at e2
  rw [e0, e1, e2]
  refine ⟨rfl, ?_, ?_⟩
  · intro h1 h2 h3
    subst h1 h2 h3
    exact ⟨by rw [hsrc]; decide, by decide⟩
  · intro h2 h3
    subst h2 h3
    rfl

/-- C21 on the gradient colour of row `v = 100`, as second sample of a two-sample
source. -/
theorem rgb565_macro_round_trip_witness :
    (rgb565_to_rgb666 (fun _ => RGB565 100 0 155) (fun _ => 0) 2 (3 * 1),
        rgb565_to_rgb666 (fun _ => RGB565 100 0 155) (fun _ => 0) 2 (3 * 1 + 1),
        rgb565_to_rgb666 (fun _ => RGB565 100 0 155) (fun _ => 0) 2 (3 * 1 + 2))
      = (100 &&& 0xF8, 0 &&& 0xFC, 155 &&& 0xF8) :=
  (rgb565_macro_round_trip (fun _ => RGB565 100 0 155) (fun _ => 0) 2 1 100 0 155
    (by decide) (by decide) (by decide) (by decide) (by decide) rfl).1

/-! ## Lemmas on the stores of the conversion -/

/-- An index the loop does not store to keeps its byte. -/
theorem rgb565_to_rgb666_frame (src dst : Nat → Nat) (n j : Nat)
    (hj : j ∉ rgb565_to_rgb666_stores n) : rgb565_to_rgb666 src dst n j = dst j := by
  induction n with
  | zero => rfl
  | succ m ih =>
    simp only [rgb565_to_rgb666_stores, List.mem_append, List.mem_cons, List.mem_singleton,
      List.not_mem_nil, or_false, not_or] at hj
    simp only [rgb565_to_rgb666]
    rw [store_other _ _ _ _ hj.2.2.2, store_other _ _ _ _ hj.2.2.1,
      store_other _ _ _ _ hj.2.1]
    exact ih hj.1

/-- Every store of the loop is at `3 * i + k` for a sample `i` and a channel `k`. -/
theorem rgb565_to_rgb666_stores_mem (n j : Nat) (hj : j ∈ rgb565_to_rgb666_stores n) :
    ∃ i k, i < n ∧ k < 3 ∧ j = (3 * i + k) % 2 ^ 32 := by
  induction n with
  | zero => simp [rgb565_to_rgb666_stores] at hj
  | succ m ih =>
    simp only [rgb565_to_rgb666_stores, List.mem_append, List.mem_cons, List.mem_singleton,
      List.not_mem_nil, or_false] at hj
    rcases hj with h | h | h | h
    · obtain ⟨i, k, hi, hk, e⟩ := ih h
      exact ⟨i, k, by omega, hk, e⟩
    · exact ⟨m, 0, by omega, by omega, h⟩
    · exact ⟨m, 1, by omega, by omega, h⟩
    · exact ⟨m, 2, by omega, by omega, h⟩

/-- The index `3 * i + k` of sample `i < n` and channel `k < 3` is stored to. -/
theorem rgb565_to_rgb666_stores_complete (n i k : Nat) (hi : i < n) (hk : k < 3) :
    (3 * i + k) % 2 ^ 32 ∈ rgb565_to_rgb666_stores n := by
  induction n with
  | zero => omega
  | succ m ih =>
    simp only [rgb565_to_rgb666_stores, List.mem_append, List.mem_cons, List.mem_singleton,
      List.not_mem_nil, or_false]
    by_cases him : i = m
    · subst him
      rcases (by omega : k = 0 ∨ k = 1 ∨ k = 2) with rfl | rfl | rfl
      · exact Or.inr (Or.inl rfl)
      · exact Or.inr (Or.inr (Or.inl rfl))
      · exact Or.inr (Or.inr (Or.inr rfl))
    · exact Or.inl (ih (by omega))

/-! ## Claims on the buffer bounds -/

/-- C22: for every draw call whose pixel count `n` passes the size check
(`n <= 25600`), the conversion stores exactly at the indices `3 * i + k` with `i < n`
and `k < 3`, all strictly below 76800, the length of the scratch buffer, and changes no
other byte; the payload handed to the transport is the first `3 * n <= 76800` bytes of
the buffer. -/
theorem draw_bitmap_within_conv_buf (t : Transport) (hw : Hw) (ili : ili9486_panel_t)
    (x_start y_start x_end y_end : Int) (color_data : Nat → Nat)
    (hcheck : to_size_t ((x_end - x_start) * (y_end - y_start)) ≤ CONV_BUF_PIXELS) :
    S_CONV_BUF_SIZE = 76800
    ∧ (∀ i k, i < to_size_t ((x_end - x_start) * (y_end - y_start)) → k < 3 →
        (3 * i + k) % 2 ^ 32
            ∈ rgb565_to_rgb666_stores (to_size_t ((x_end - x_start) * (y_end - y_start)))
        ∧ (3 * i + k) % 2 ^ 32 = 3 * i + k
        ∧ 3 * i + k < S_CONV_BUF_SIZE)
    ∧ (∀ j, j ∈ rgb565_to_rgb666_stores (to_size_t ((x_end - x_start) * (y_end - y_start)))
        → j < S_CONV_BUF_SIZE)
    ∧ (∀ j, j ∉ rgb565_to_rgb666_stores (to_size_t ((x_end - x_start) * (y_end - y_start)))
        → (panel_ili9486_draw_bitmap t hw ili x_start y_start x_end y_end
            color_data).2.s_conv_buf j = hw.s_conv_buf j)
    ∧ 3 * to_size_t ((x_end - x_start) * (y_end - y_start)) ≤ S_CONV_BUF_SIZE
    ∧ ∃ before,
        (panel_ili9486_draw_bitmap t hw ili x_start y_start x_end y_end color_data).2.bus
          = before ++ [⟨IoKind.tx_color, ili.handle, -1,
              buf_bytes (panel_ili9486_draw_bitmap t hw ili x_start y_start x_end y_end
                  color_data).2.s_conv_buf
                (3 * to_size_t ((x_end - x_start) * (y_end - y_start)))⟩] := by
  have hc : CONV_BUF_PIXELS = 25600 := rfl
  have hsz : S_CONV_BUF_SIZE = 76800 := rfl
  have e : (to_size_t ((x_end - x_start) * (y_end - y_start)) * 3) % 2 ^ 32
      = 3 * to_size_t ((x_end - x_start) * (y_end - y_start)) := by omega
  refine ⟨hsz, ?_, ?_, ?_, by omega, ?_⟩
  · intro i k hi hk
    exact ⟨rgb565_to_rgb666_stores_complete _ i k hi hk, Nat.mod_eq_of_lt (by omega),
      by omega⟩
  · intro j hj
    obtain ⟨i, k, hi, hk, rfl⟩ := rgb565_to_rgb666_stores_mem _ j hj
    have : (3 * i + k) % 2 ^ 32 = 3 * i + k := Nat.mod_eq_of_lt (by omega)
    omega
  · intro j hj
    rw [draw_bitmap_eq, if_neg (by omega)]
    exact rgb565_to_rgb666_frame color_data hw.s_conv_buf _ j hj
  · rw [draw_bitmap_eq, if_neg (by omega)]
    refine ⟨hw.bus ++ window_calls ili x_start y_start x_end y_end
      ++ spec_memory_write ili.handle, ?_⟩
    simp only [spec_payload, payload_bytes, e]

/-- C22 on the largest accepted rectangle, `(0, 0, 320, 80)` of 25600 pixels: the last
byte stored for the last sample is at index 76799. -/
theorem draw_bitmap_within_conv_buf_witness :
    (3 * 25599 + 2) % 2 ^ 32 = 3 * 25599 + 2 ∧ 3 * 25599 + 2 < S_CONV_BUF_SIZE :=
  ((draw_bitmap_within_conv_buf transport_ok hw0 panel0 0 0 320 80 (fun _ => 0)
    (by decide)).2.1 25599 2 (by decide) (by decide)).2

/-! ## Claims on inverted rectangles and on what the emitted calls depend on -/

/-- C23 (as stated, refuted): the rectangle `(1, 1, 0, 0)` has both edges inverted and
a signed product of 1; draw does not return the size error, and after the window it
sends the memory-write opcode and a payload of three bytes. -/
theorem draw_bitmap_both_edges_inverted :
    (0 : Int) < 1 ∧ ((0 : Int) - 1) * (0 - 1) = 1
    ∧ (panel_ili9486_draw_bitmap transport_ok hw0 panel0 1 1 0 0 (fun _ => 0xF800)).1
        = ESP_OK
    ∧ (panel_ili9486_draw_bitmap transport_ok hw0 panel0 1 1 0 0 (fun _ => 0xF800)).1
        ≠ ESP_ERR_INVALID_SIZE
    ∧ ((panel_ili9486_draw_bitmap transport_ok hw0 panel0 1 1 0 0
          (fun _ => 0xF800)).2.bus.drop 4).map call_content
        = [(IoKind.tx_param, 0x2C, []), (IoKind.tx_color, -1, [0xF8, 0, 0])] := by
  refine ⟨by decide, by decide, ?_, ?_, ?_⟩
  · rw [draw_bitmap_eq]; decide
  · rw [draw_bitmap_eq]; decide
  · rw [draw_bitmap_eq]; decide

/-- C23 (amended): for every rectangle with one edge inverted and the other of
positive extent, whose signed product is not below the range of the 32-bit `int`, the
unsigned pixel count exceeds the capacity: draw returns `ESP_ERR_INVALID_SIZE`, adds
only the two address-set transactions to the log and leaves the conversion buffer as
it was. -/
theorem draw_bitmap_inverted_edge (t : Transport) (hw : Hw) (ili : ili9486_panel_t)
    (x_start y_start x_end y_end : Int) (color_data : Nat → Nat)
    (hedge : (x_end < x_start ∧ y_start < y_end) ∨ (y_end < y_start ∧ x_start < x_end))
    (hfit : -(2 ^ 31) ≤ (x_end - x_start) * (y_end - y_start)) :
    CONV_BUF_PIXELS < to_size_t ((x_end - x_start) * (y_end - y_start))
    ∧ (panel_ili9486_draw_bitmap t hw ili x_start y_start x_end y_end color_data).1
        = ESP_ERR_INVALID_SIZE
    ∧ (∃ caset raset,
        (panel_ili9486_draw_bitmap t hw ili x_start y_start x_end y_end color_data).2.bus
          = hw.bus ++ (spec_column_set ili.handle caset ++ spec_row_set ili.handle raset))
    ∧ (panel_ili9486_draw_bitmap t hw ili x_start y_start x_end y_end color_data).2.s_conv_buf
        = hw.s_conv_buf := by
  have hc : CONV_BUF_PIXELS = 25600 := rfl
  have hneg : (x_end - x_start) * (y_end - y_start) < 0 := by
    rcases hedge with ⟨h1, h2⟩ | ⟨h1, h2⟩
    · exact Int.mul_neg_of_neg_of_pos (by omega) (by omega)
    · exact Int.mul_neg_of_pos_of_neg (by omega) (by omega)
  have hbig : CONV_BUF_PIXELS < to_size_t ((x_end - x_start) * (y_end - y_start)) := by
    unfold to_size_t
    omega
  rw [draw_bitmap_eq, if_pos hbig]
  exact ⟨hbig, rfl,
    ⟨addr_bytes (wrap_int (x_start + ili.x_gap)) (wrap_int (x_end + ili.x_gap)),
      addr_bytes (wrap_int (y_start + ili.y_gap)) (wrap_int (y_end + ili.y_gap)), rfl⟩, rfl⟩

/-- C23 (amended) on the rectangle `(10, 0, 0, 5)`, whose first edge is inverted. -/
theorem draw_bitmap_inverted_edge_witness :
    (panel_ili9486_draw_bitmap transport_ok hw0 panel0 10 0 0 5 (fun _ => 0)).1
      = ESP_ERR_INVALID_SIZE :=
  (draw_bitmap_inverted_edge transport_ok hw0 panel0 10 0 0 5 (fun _ => 0)
    (Or.inl ⟨by decide, by decide⟩) (by decide)).2.1

/-- The content of the window calls depends on the gap and the coordinates only. -/
theorem window_calls_content (ili1 ili2 : ili9486_panel_t) (a b c d : Int)
    (hx : ili1.x_gap = ili2.x_gap) (hy : ili1.y_gap = ili2.y_gap) :
    (window_calls ili1 a b c d).map call_content
      = (window_calls ili2 a b c d).map call_content := by
  simp [window_calls, spec_column_set, spec_row_set, call_content, hx, hy]

theorem emitted_append (before added : List IoCall) :
    emitted before (before ++ added) = added := by
  simp [emitted]

/-- C24 (as stated, refuted): two draw calls on the rectangle `(65537, 0, 0, 65535)`
with the same panel, gap, transport and outside state agree on the first
`(x_end - x_start) * (y_end - y_start)` samples, this product being negative, yet with
different sources they send different payloads: the 32-bit count is 1 and the first
sample is converted and sent. -/
theorem draw_bitmap_payload_differs :
    ((0 : Int) - 65537) * (65535 - 0) < 0
    ∧ ((panel_ili9486_draw_bitmap transport_ok hw0 panel0 65537 0 0 65535
          (fun _ => 0)).2.bus.drop 5).map call_content
        = [(IoKind.tx_color, -1, [0, 0, 0])]
    ∧ ((panel_ili9486_draw_bitmap transport_ok hw0 panel0 65537 0 0 65535
          (fun _ => 0xFFFF)).2.bus.drop 5).map call_content
        = [(IoKind.tx_color, -1, [0xF8, 0xFC, 0xF8])]
    ∧ (emitted hw0.bus (panel_ili9486_draw_bitmap transport_ok hw0 panel0 65537 0 0 65535
          (fun _ => 0)).2.bus).map call_content
        ≠ (emitted hw0.bus (panel_ili9486_draw_bitmap transport_ok hw0 panel0 65537 0 0 65535
          (fun _ => 0xFFFF)).2.bus).map call_content := by
  have h1 : ((panel_ili9486_draw_bitmap transport_ok hw0 panel0 65537 0 0 65535
      (fun _ => 0)).2.bus.drop 5).map call_content = [(IoKind.tx_color, -1, [0, 0, 0])] := by
    rw [draw_bitmap_eq]; decide
  have h2 : ((panel_ili9486_draw_bitmap transport_ok hw0 panel0 65537 0 0 65535
      (fun _ => 0xFFFF)).2.bus.drop 5).map call_content
      = [(IoKind.tx_color, -1, [0xF8, 0xFC, 0xF8])] := by
    rw [draw_bitmap_eq]; decide
  refine ⟨by decide, h1, h2, ?_⟩
  intro h
  have h3 := congrArg (List.drop 5) h
  have e : ∀ l : List IoCall, emitted hw0.bus l = l := fun _ => rfl
  rw [e, e, ← List.map_drop, ← List.map_drop, h1, h2] at h3
  exact absurd h3 (by decide)

/-- C24 (amended): when the signed product `(x_end - x_start) * (y_end - y_start)` is
not below the range of the 32-bit `int`, two draw calls with the same gap and
coordinates whose sources agree on the first `(x_end - x_start) * (y_end - y_start)`
samples add calls of the same content (primitives, opcodes, window bytes and payload)
to the log, whatever the transport behaviours, the earlier logs, the contents of the
conversion buffer, the mode registers, the inversion flags and the reset lines; on the
same handle the added calls are the same. -/
theorem draw_bitmap_calls_depend_only (t1 t2 : Transport) (hw1 hw2 : Hw)
    (ili1 ili2 : ili9486_panel_t) (x_start y_start x_end y_end : Int)
    (cd1 cd2 : Nat → Nat)
    (hx : ili1.x_gap = ili2.x_gap) (hy : ili1.y_gap = ili2.y_gap)
    (hfit : -(2 ^ 31) ≤ (x_end - x_start) * (y_end - y_start))
    (hsrc : ∀ i : Nat, (i : Int) < (x_end - x_start) * (y_end - y_start) → cd1 i = cd2 i) :
    (emitted hw1.bus
        (panel_ili9486_draw_bitmap t1 hw1 ili1 x_start y_start x_end y_end cd1).2.bus).map
        call_content
      = (emitted hw2.bus
        (panel_ili9486_draw_bitmap t2 hw2 ili2 x_start y_start x_end y_end cd2).2.bus).map
        call_content
    ∧ (ili1.handle = ili2.handle →
        emitted hw1.bus
            (panel_ili9486_draw_bitmap t1 hw1 ili1 x_start y_start x_end y_end cd1).2.bus
          = emitted hw2.bus
            (panel_ili9486_draw_bitmap t2 hw2 ili2 x_start y_start x_end y_end cd2).2.bus) := by
  have hc : CONV_BUF_PIXELS = 25600 := rfl
  rw [draw_bitmap_eq, draw_bitmap_eq]
  by_cases hbig : CONV_BUF_PIXELS < to_size_t ((x_end - x_start) * (y_end - y_start))
  · rw [if_pos hbig, if_pos hbig]
    simp only [emitted_append]
    refine ⟨window_calls_content ili1 ili2 _ _ _ _ hx hy, ?_⟩
    intro hh
    simp only [window_calls, hx, hy, hh]
  · rw [if_neg hbig, if_neg hbig]
    have hn : to_size_t ((x_end - x_start) * (y_end - y_start)) ≤ CONV_BUF_PIXELS := by omega
    have hle : ((to_size_t ((x_end - x_start) * (y_end - y_start)) : Nat) : Int)
        ≤ (x_end - x_start) * (y_end - y_start) := by
      unfold to_size_t at hn ⊢
      omega
    have hpay : payload_bytes hw1.s_conv_buf cd1
          (to_size_t ((x_end - x_start) * (y_end - y_start)))
        = payload_bytes hw2.s_conv_buf cd2
          (to_size_t ((x_end - x_start) * (y_end - y_start))) := by
      rw [payload_bytes_eq _ _ _ hn, payload_bytes_eq _ _ _ hn]
      apply List.flatMap_congr
      intro i hi
      have hi2 : i < to_size_t ((x_end - x_start) * (y_end - y_start)) := List.mem_range.mp hi
      rw [hsrc i (by omega)]
    simp only [List.append_assoc, emitted_append]
    rw [hpay]
    refine ⟨?_, ?_⟩
    · simp only [List.map_append, window_calls_content ili1 ili2 _ _ _ _ hx hy]
      simp [spec_memory_write, spec_payload, call_content]
    · intro hh
      simp only [window_calls, hx, hy, hh]

/-- C24 (amended) on the rectangle `(0, 0, 2, 1)`: two sources that agree on the first
two samples, with different buffers, registers and transports. -/
theorem draw_bitmap_calls_depend_only_witness :
    (emitted hw0.bus
        (panel_ili9486_draw_bitmap transport_ok hw0 panel0 0 0 2 1
          (fun i => if i < 2 then 0xF800 else 0)).2.bus).map call_content
      = (emitted [⟨IoKind.tx_param, 1, 0x29, []⟩]
        (panel_ili9486_draw_bitmap transport_fail
          ⟨[⟨IoKind.tx_param, 1, 0x29, []⟩], fun _ => 0xAA⟩ ⟨1, -1, 0, 0, 0xE8, true⟩ 0 0 2 1
          (fun i => if i < 2 then 0xF800 else 0x1234)).2.bus).map call_content :=
  (draw_bitmap_calls_depend_only transport_ok transport_fail hw0
    ⟨[⟨IoKind.tx_param, 1, 0x29, []⟩], fun _ => 0xAA⟩ panel0 ⟨1, -1, 0, 0, 0xE8, true⟩
    0 0 2 1 (fun i => if i < 2 then 0xF800 else 0) (fun i => if i < 2 then 0xF800 else 0x1234)
    rfl rfl (by decide)
    (fun i hi => by
      have h2 : i < 2 := by
        have : (i : Int) < 2 := by simpa using hi
        omega
      simp [h2])).1

end Ili9486
